import Mathlib

/-!
Verification development for the content-based innovation recommendation
engine: a shallow embedding of `app/utils/text_processing.py` and
`app/services/recommendation_service.py`, followed by theorems about the
embedded definitions.

Modelling conventions:
* strings are Lean `String`s, manipulated through their `List Char` data
  (the ASCII fragment of Python's str semantics);
* the external Sastrawi stemmer and the stopword resource are parameters
  (`stem : String → Option String`, with `none` modelling a raised
  exception, and `stop : List String`); the bundled fallback stopword list
  from the source is reproduced verbatim as `INDONESIAN_STOPWORDS`;
* floating-point quantities are modelled exactly: similarity scores and
  TF-IDF weights live in `ℝ`, timestamps and document-frequency bounds in
  `ℚ`;
* fallible steps return `Option`; every `except` branch of the source that
  swallows an error is an explicit `none`/default case here.
-/

namespace RecEngine

/-- Characters matched by the regex class `\s`. -/
def isSpc (c : Char) : Bool := c.isWhitespace

/-- Characters matched by the regex class `\w` (letters, digits,
underscore; ASCII fragment). -/
def isWordChar (c : Char) : Bool := c.isAlphanum || c = '_'

/-- Python `str.strip()`: drop whitespace from both ends. -/
def trimChars (l : List Char) : List Char :=
  ((l.dropWhile isSpc).reverse.dropWhile isSpc).reverse

/-- Step 3a of `preprocess_text`, `re.sub(r"\\[tn]", " ", text)`: each
literal backslash followed by `t` or `n` becomes one space, scanning left
to right without overlap. -/
def replEscTN : List Char → List Char
  | [] => []
  | '\\' :: 't' :: rest => ' ' :: replEscTN rest
  | '\\' :: 'n' :: rest => ' ' :: replEscTN rest
  | c :: rest => c :: replEscTN rest

/-- Hexadecimal digits, the regex class `[0-9a-fA-F]`. -/
def isHexDig (c : Char) : Bool :=
  c.isDigit || ('a' ≤ c && c ≤ 'f') || ('A' ≤ c && c ≤ 'F')

/-- Step 3b of `preprocess_text`, `re.sub(r"\\u[0-9a-fA-F]{4}", " ", text)`:
a backslash-u followed by four hex digits becomes one space; on a failed
match the scanner advances one character, as the regex engine does. -/
def replEscU : List Char → List Char
  | '\\' :: 'u' :: a :: b :: c :: d :: rest =>
      if isHexDig a && isHexDig b && isHexDig c && isHexDig d
      then ' ' :: replEscU rest
      else '\\' :: replEscU ('u' :: a :: b :: c :: d :: rest)
  | c :: rest => c :: replEscU rest
  | [] => []

/-- Step 3c, `re.sub(r"\\+", "", text)`: delete every backslash. -/
def dropBackslash (l : List Char) : List Char := l.filter (fun c => !(c = '\\'))

/-- Step 4a, `re.sub(r"\d+", "", text)`: delete every digit. -/
def dropDigits (l : List Char) : List Char := l.filter (fun c => !c.isDigit)

/-- Step 4b, `re.sub(r"[^\w\s]", "", text)`: keep only word characters and
whitespace. -/
def keepWordSpace (l : List Char) : List Char :=
  l.filter (fun c => isWordChar c || isSpc c)

/-- One step of whitespace chunking (fold from the right): a whitespace
character opens a fresh chunk, any other character extends the current
chunk. -/
def chunksStep (c : Char) (acc : List (List Char)) : List (List Char) :=
  if isSpc c then [] :: acc
  else
    match acc with
    | [] => [[c]]
    | t :: ts => (c :: t) :: ts

/-- Whitespace tokenization.  The source first collapses whitespace runs
(`re.sub(r"\s+", " ", text).strip()`, step 5) and then calls `.split()`
(step 6); splitting the uncollapsed text on whitespace runs and dropping
empty chunks yields exactly the same token list. -/
def splitWs (l : List Char) : List (List Char) :=
  (l.foldr chunksStep []).filter (fun t => !t.isEmpty)

/-- Step 6 filtering: `[token for token in text.split() if token.strip()
and len(token) > 1]`. -/
def rawTokens (l : List Char) : List (List Char) :=
  (splitWs l).filter (fun t => !(trimChars t).isEmpty && 1 < t.length)

/-- Step 8, `tokens = [stemmer.stem(token) for token in tokens]` inside
`try`: the comprehension stems left to right and is abandoned wholesale on
the first raised exception (modelled by `stem` returning `none`). -/
def stemAll (stem : String → Option String) : List (List Char) → Option (List (List Char))
  | [] => some []
  | t :: ts =>
      match stem ⟨t⟩, stemAll stem ts with
      | some s, some rest => some (s.data :: rest)
      | _, _ => none

/-- Step 8 with its `except` branch: when stemming any token raises, the
assignment never happens and the token list keeps its pre-stemming value
(the source comment: "Fallback: return tokens tanpa stemming"). -/
def stemStep (stem : String → Option String) (toks : List (List Char)) : List (List Char) :=
  match stemAll stem toks with
  | some ts => ts
  | none => toks

/-- Steps 1-7 of `preprocess_text`: the token list right before stemming
(validation, lowercasing, escape cleaning, digit and punctuation removal,
tokenization with the length filter, stopword removal).  Every `return ""`
early exit of the source corresponds to the empty token list here. -/
def preTokens (stop : List String) (text : String) : List (List Char) :=
  let t0 := trimChars text.data
  if t0.isEmpty then []
  else
    let t1 := t0.map Char.toLower
    let t2 := dropBackslash (replEscU (replEscTN t1))
    let t3 := keepWordSpace (dropDigits t2)
    let toks1 := rawTokens t3
    toks1.filter (fun t => !stop.contains ⟨t⟩)

/-- The token list that `preprocess_text` joins at the end: `preTokens`
followed by the stemming step (8) and the final length filter (9). -/
def finalToks (stop : List String) (stem : String → Option String) (text : String) :
    List (List Char) :=
  (stemStep stem (preTokens stop text)).filter (fun t => !t.isEmpty && 1 < t.length)

/-- Space join, `" ".join(tokens)`. -/
def joinSp : List (List Char) → List Char
  | [] => []
  | [t] => t
  | t :: ts => t ++ ' ' :: joinSp ts

/-- Function `preprocess_text` from `app/utils/text_processing.py`. -/
def preprocess_text (stop : List String) (stem : String → Option String) (text : String) :
    String :=
  ⟨joinSp (finalToks stop stem text)⟩

/-- Function `batch_preprocess_text`: per-item processing with the stopword
set and stemmer shared; a raising item yields `""`, but the pure embedding
of `preprocess_text` is total, so there is no failing case to model. -/
def batch_preprocess_text (stop : List String) (stem : String → Option String)
    (texts : List String) : List String :=
  texts.map (preprocess_text stop stem)

/-- The bundled fallback Indonesian stopword list from `text_processing.py`
(`INDONESIAN_STOPWORDS`). -/
def INDONESIAN_STOPWORDS : List String :=
 [
  "ada", "adalah", "adanya", "adapun", "agak", "agaknya", "agar", "akan",
  "akankah", "akhir", "akhiri", "akhirnya", "aku", "akulah", "amat", "amatlah",
  "anda", "andalah", "antar", "antara", "antaranya", "apa", "apaan", "apabila",
  "apakah", "apalagi", "apatah", "artinya", "asal", "asalkan", "atas", "atau",
  "ataukah", "ataupun", "awal", "awalnya", "bagai", "bagaikan", "bagaimana", "bagaimanakah",
  "bagaimanapun", "bagi", "bagian", "bahkan", "bahwa", "bahwasanya", "baik", "bakal",
  "bakalan", "balik", "banyak", "bapak", "baru", "bawah", "beberapa", "begini",
  "beginian", "beginilah", "beginikah", "begitu", "begitukah", "begitulah", "begitupun", "bekerja",
  "belakang", "belakangan", "belum", "belumlah", "benar", "benarkah", "benarlah", "berada",
  "berakhir", "berakhirlah", "berakhirnya", "berapa", "berapakah", "berapalah", "berapapun", "berarti",
  "berawal", "berbagai", "berdatangan", "beri", "berikan", "berikut", "berikutnya", "berjumlah",
  "berkali", "berkata", "berkehendak", "berkeinginan", "berkenaan", "berlainan", "berlalu", "berlangsung",
  "berlebihan", "bermacam", "bermaksud", "bermula", "bersama", "bersedia", "bersiap", "bersoal",
  "bertanya", "bertanya-tanya", "berturut", "berturut-turut", "bertutur", "berujar", "berupa", "besar",
  "betul", "betulkah", "biasa", "biasanya", "bila", "bilakah", "bisa", "bisakah",
  "boleh", "bolehkah", "buat", "bukan", "bukankah", "bukanlah", "bukannya", "bulan",
  "bung", "cara", "caranya", "cukup", "cukupkah", "cukuplah", "cuma", "dahulu",
  "dalam", "dan", "dapat", "dari", "daripada", "datang", "dekat", "demi",
  "demikian", "demikianlah", "dengan", "depan", "di", "dia", "diakhiri", "diakhirinya",
  "dialah", "diantara", "diantaranya", "diberi", "diberikan", "diberikannya", "dibuat", "dibuatnya",
  "didapat", "didatangkan", "digunakan", "diibaratkan", "diibaratkannya", "diingat", "diingatkan", "diinginkan",
  "dijawab", "dijelaskan", "dijelaskannya", "dikarenakan", "dikatakan", "dikatakannya", "dikerjakan", "diketahui",
  "diketahuinya", "dikira", "dilakukan", "dilalui", "dilihat", "dimaksud", "dimaksudkan", "dimaksudkannya",
  "dimaksudnya", "diminta", "dimintai", "dimisalkan", "dimulai", "dimulailah", "dimulainya", "dimungkinkan",
  "dini", "dipastikan", "diperbuat", "diperbuatnya", "dipergunakan", "diperkirakan", "diperlihatkan", "diperlukan",
  "diperlukannya", "dipersoalkan", "dipertanyakan", "dipunyai", "diri", "dirinya", "disampaikan", "disebut",
  "disebutkan", "disebutkannya", "disini", "disinilah", "ditambahkan", "ditandaskan", "ditanya", "ditanyai",
  "ditanyakan", "ditegaskan", "ditujukan", "ditunjuk", "ditunjuki", "ditunjukkan", "ditunjukkannya", "ditunjuknya",
  "dituturkan", "dituturkannya", "diucapkan", "diucapkannya", "diungkapkan", "dong", "dulu", "empat",
  "enggak", "enggaknya", "entah", "entahlah", "guna", "gunakan", "hal", "hampir",
  "hanya", "hanyalah", "hari", "harus", "haruslah", "harusnya", "hendak", "hendaklah",
  "hendaknya", "hingga", "ia", "ialah", "ibarat", "ibaratkan", "ibaratnya", "ibu",
  "ikut", "ingat", "ingat-ingat", "ingin", "inginkah", "inginkan", "ini", "inikah",
  "inilah", "itu", "itukah", "itulah", "jadi", "jadilah", "jadinya", "jangan",
  "jangankan", "janganlah", "jauh", "jawab", "jawaban", "jawabnya", "jelas", "jelaskan",
  "jelaslah", "jelasnya", "jika", "jikalau", "juga", "jumlah", "jumlahnya", "justru",
  "kala", "kalau", "kalaulah", "kalaupun", "kalian", "kami", "kamilah", "kamu",
  "kamulah", "kan", "kapan", "kapankah", "kapanpun", "karena", "karenanya", "kasus",
  "kata", "katakan", "katakanlah", "katanya", "ke", "keadaan", "kebetulan", "kecil",
  "kedua", "keduanya", "keinginan", "kelamaan", "kelihatan", "kelihatannya", "keluar", "kemana",
  "kemari", "kemarin", "kemudian", "kenapa", "kepada", "kepadanya", "kesampaian", "keseluruhan",
  "keseluruhannya", "ketika", "kini", "kinilah", "kira", "kira-kira", "kiranya", "kita",
  "kitalah", "kok", "kurang", "lagi", "lagian", "lah", "lain", "lainnya",
  "lalu", "lama", "lamanya", "lanjut", "lanjutnya", "lebih", "lewat", "lima",
  "luar", "macam", "maka", "makanya", "makin", "malah", "malahan", "mampu",
  "mampukah", "mana", "manakala", "manalagi", "masa", "masalah", "masalahnya", "masih",
  "masihkah", "masing", "masing-masing", "mau", "maupun", "melainkan", "melakukan", "melalui",
  "melihat", "melihatnya", "memang", "memastikan", "memberi", "memberikan", "membuat", "memerlukan",
  "memihak", "meminta", "memintakan", "memisalkan", "memperbuat", "mempergunakan", "memperkirakan", "memperlihatkan",
  "mempersiapkan", "mempersoalkan", "mempertanyakan", "mempunyai", "memulai", "memungkinkan", "menaiki", "menambah",
  "menambahkan", "menanti", "menantikan", "menanya", "menanyai", "menanyakan", "mendapat", "mendapatkan",
  "mendatang", "mendatangi", "mendatangkan", "menegaskan", "mengakhiri", "mengapa", "mengatakan", "mengatakannya",
  "mengenai", "mengerjakan", "mengetahui", "menggunakan", "menghendaki", "mengibaratkan", "mengibaratkannya", "mengingat",
  "mengingatkan", "menginginkan", "mengira", "mengucapkan", "mengucapkannya", "mengungkapkan", "menjadi", "menjawab",
  "menjelaskan", "menuju", "menunjuk", "menunjuki", "menunjukkan", "menunjuknya", "menurut", "menuturkan",
  "menyampaikan", "menyangkut", "menyatakan", "menyebutkan", "menyeluruh", "menyiapkan", "merasa", "mereka",
  "merekalah", "merupakan", "meski", "meskipun", "minta", "mirip", "misal", "misalkan",
  "misalnya", "mula", "mulai", "mulailah", "mulanya", "mungkin", "mungkinkah", "nah",
  "naik", "namun", "nanti", "nantinya", "nyaris", "oleh", "olehnya", "pada",
  "padahal", "padanya", "pak", "paling", "panjang", "pantas", "para", "pasti",
  "pastilah", "penting", "pentingnya", "per", "percuma", "perlu", "perlukah", "perlunya",
  "pernah", "pernahkah", "pertama", "pertama-tama", "pertanyaan", "pertanyakan", "pihak", "pihaknya",
  "pukul", "pula", "pun", "punya", "punyakah", "rah", "rasa", "rasanya",
  "rata", "rupanya", "saat", "saatnya", "saja", "sajalah", "saling", "sama",
  "sama-sama", "sambil", "sampai", "sampai-sampai", "sampaikan", "sana", "sangat", "sangatlah",
  "sani", "satu", "saya", "sayalah", "se", "sebab", "sebabnya", "sebagai",
  "sebagaimana", "sebagainya", "sebagian", "sebaik", "sebaik-baiknya", "sebaiknya", "sebaliknya", "sebanyak",
  "sebegini", "sebegitu", "sebelum", "sebelumnya", "sebenarnya", "seberapa", "sebesar", "sebetulnya",
  "sebisanya", "sebuah", "sebut", "sebutlah", "sebutnya", "secara", "secukupnya", "sedang",
  "sedangkan", "sedemikian", "sedikit", "sedikitnya", "seenaknya", "segala", "segalanya", "segera",
  "seharusnya", "sehingga", "seingat", "sejak", "sejauh", "sejenak", "sejumlah", "sekadar",
  "sekadarnya", "sekali", "sekali-kali", "sekalian", "sekaligus", "sekalipun", "sekarang", "sekecil",
  "seketika", "sekiranya", "sekitar", "sekitarnya", "sekurang-kurangnya", "sekurangnya", "sela", "selain",
  "selaku", "selama", "selama-lamanya", "selamanya", "selanjutnya", "seluruh", "seluruhnya", "semacam",
  "semakin", "semampu", "semampunya", "semasa", "semasih", "semata", "semata-mata", "semaunya",
  "sementara", "semisal", "semisalnya", "sempat", "semua", "semuanya", "semula", "sendiri",
  "sendirian", "sendirinya", "seolah", "seolah-olah", "seorang", "sepanjang", "sepantasnya", "sepantasnyalah",
  "seperlunya", "seperti", "sepertinya", "sepihak", "sering", "seringnya", "serta", "serupa",
  "sesaat", "sesama", "sesampai", "sesegera", "sesekali", "seseorang", "sesuatu", "sesuatunya",
  "sesudah", "sesudahnya", "setelah", "setempat", "setengah", "seterusnya", "setiap", "setiba",
  "setibanya", "setidak-tidaknya", "setidaknya", "setinggi", "seusai", "sewajarnya", "sewaktu", "siap",
  "siapa", "siapakah", "siapapun", "sih", "sini", "sinilah", "soal", "soalnya",
  "suatu", "sudah", "sudahkah", "sudahlah", "supaya", "tadi", "tadinya", "tahu",
  "tahun", "tak", "tambah", "tambahnya", "tampak", "tampaknya", "tandas", "tandasnya",
  "tanpa", "tanya", "tanyakan", "tanyanya", "tapi", "tegas", "tegasnya", "telah",
  "tempat", "tengah", "tentang", "tentu", "tentulah", "tentunya", "tepat", "terakhir",
  "terasa", "terbanyak", "terdahulu", "terdapat", "terdiri", "terhadap", "terhadapnya", "teringat",
  "teringat-ingat", "terjadi", "terjadilah", "terjadinya", "terkira", "terlalu", "terlebih", "terlihat",
  "termasuk", "ternyata", "tersampaikan", "tersebut", "tersebutlah", "tertentu", "tertuju", "terus",
  "terutama", "tetap", "tetapi", "tiap", "tiba", "tiba-tiba", "tidak", "tidakkah",
  "tidaklah", "tiga", "tinggi", "toh", "tunjuk", "turut", "tutur", "tuturnya",
  "ucap", "ucapnya", "ujar", "ujarnya", "umum", "umumnya", "ungkap", "ungkapnya",
  "untuk", "usah", "usai", "waduh", "wah", "wahai", "waktu", "waktunya",
  "walau", "walaupun", "wong", "yaitu", "yakin", "yakni", "yang"
 ]

/-- A raw Firestore document as fetched by
`_fetch_innovations_from_firebase` (`select`ed fields may be absent from a
document; `none` models a missing value / NaN).  The fetch helper itself
tolerates per-document errors and returns `[]` on a store failure, so its
result is simply a list of these. -/
structure RawRecord where
  id : Option String
  deskripsi : Option String
  kategori : Option String
  namaInovasi : Option String
  namaInnovator : Option String
  images : Option (List String)
  tahunDibuat : Option String
deriving DecidableEq

/-- A cleaned catalog row, the row type of `_validate_and_clean_data`'s
output DataFrame: text columns are strings with missing values filled by
`""`; `images` and `tahunDibuat` keep their possibly-missing raw values
(they are defaulted later, during materialization). -/
structure Record where
  id : String
  deskripsi : String
  kategori : String
  namaInovasi : String
  namaInnovator : String
  images : Option (List String)
  tahunDibuat : Option String
deriving DecidableEq

/-- Function `_validate_and_clean_data`, row level: drop rows whose `id` is
missing (`dropna(subset=["id"])`) or blank after stripping
(`df["id"].str.strip() != ""`), and `fillna("")` the four text columns. -/
def cleanData (data : List RawRecord) : List Record :=
  data.filterMap fun r =>
    match r.id with
    | none => none
    | some i =>
        if (trimChars i.data).isEmpty then none
        else
          some { id := i, deskripsi := r.deskripsi.getD "", kategori := r.kategori.getD "",
                 namaInovasi := r.namaInovasi.getD "", namaInnovator := r.namaInnovator.getD "",
                 images := r.images, tahunDibuat := r.tahunDibuat }

/-- Function `_create_combined_features`, method 1 (the active one):
`df["deskripsi"] + " " + df["kategori"]`. -/
def combinedFeatures (r : Record) : String := r.deskripsi ++ " " ++ r.kategori

/-- One step of word chunking for the vectorizer tokenizer. -/
def wordStep (c : Char) (acc : List (List Char)) : List (List Char) :=
  if isWordChar c then
    match acc with
    | [] => [[c]]
    | t :: ts => (c :: t) :: ts
  else [] :: acc

/-- The vectorizer's tokenizer, `token_pattern=r"\b\w+\b"`: the maximal
runs of word characters, in order. -/
def tfTokenize (s : String) : List String :=
  ((s.data.foldr wordStep []).filter (fun t => !t.isEmpty)).map (fun t => ⟨t⟩)

/-- Consecutive token bigrams joined with a space, as sklearn's word
analyzer produces them. -/
def bigrams : List String → List String
  | a :: b :: rest => (a ++ " " ++ b) :: bigrams (b :: rest)
  | _ => []

/-- The vectorizer's analyzer for `ngram_range=(1, 2)`: all unigrams
followed by all bigrams. -/
def analyze (s : String) : List String :=
  tfTokenize s ++ bigrams (tfTokenize s)

/-- Occurrences of term `t` in one analyzed document. -/
def countTerm (doc : List String) (t : String) : ℕ :=
  (doc.filter (fun x => x == t)).length

/-- Document frequency: the number of documents containing term `t`. -/
def docFreq (docs : List (List String)) (t : String) : ℕ :=
  (docs.filter (fun d => d.contains t)).length

/-- Total corpus count of term `t` (sklearn's `tfs`, used by the
`max_features` truncation). -/
def corpusFreq (docs : List (List String)) (t : String) : ℕ :=
  (docs.map (fun d => countTerm d t)).sum

/-- Lexicographic order on character lists by code point, Python's `str`
comparison used for sklearn's sorted vocabulary. -/
def lexLt : List Char → List Char → Bool
  | [], [] => false
  | [], _ :: _ => true
  | _ :: _, [] => false
  | a :: as, b :: bs =>
      if a.toNat < b.toNat then true
      else if b.toNat < a.toNat then false
      else lexLt as bs

/-- Sorted duplicate-free insertion of a string (sklearn keeps its fitted
vocabulary in sorted order). -/
def insertSorted (x : String) : List String → List String
  | [] => [x]
  | y :: ys =>
      if x = y then y :: ys
      else if lexLt x.data y.data then x :: y :: ys
      else y :: insertSorted x ys

/-- The sorted vocabulary over all analyzed documents. -/
def sortedVocab (docs : List (List String)) : List String :=
  docs.foldl (fun acc d => d.foldl (fun a t => insertSorted t a) acc) []

/-- Stable descending insertion by key: `x` goes before the first element
whose key is not greater, so earlier-inserted elements stay first among
equal keys (Python's `sorted(..., reverse=True)` is stable). -/
def insDesc {α : Type} {β : Type} [LinearOrder β] (key : α → β) (x : α) : List α → List α
  | [] => [x]
  | y :: ys => if key x < key y then y :: insDesc key x ys else x :: y :: ys

/-- Stable descending insertion sort by key. -/
def sortDescKey {α : Type} {β : Type} [LinearOrder β] (key : α → β) : List α → List α
  | [] => []
  | x :: xs => insDesc key x (sortDescKey key xs)

/-- Stable ascending insertion by key. -/
def insAsc {α : Type} {β : Type} [LinearOrder β] (key : α → β) (x : α) : List α → List α
  | [] => [x]
  | y :: ys => if key y < key x then y :: insAsc key x ys else x :: y :: ys

/-- Stable ascending insertion sort by key (models `numpy.argsort`, whose
tie order is unspecified; the embedding resolves ties by position). -/
def sortAscKey {α : Type} {β : Type} [LinearOrder β] (key : α → β) : List α → List α
  | [] => []
  | x :: xs => insAsc key x (sortAscKey key xs)

/-- The `max_features=5000` truncation of sklearn's `_limit_features`: when
more than `limit` terms survive pruning, keep the `limit` terms with the
highest total corpus counts (numpy argsort tie order is unspecified; the
embedding keeps earlier vocabulary entries), presented in vocabulary
order. -/
def limitFeatures (docs : List (List String)) (vocab : List String) (limit : ℕ) : List String :=
  if vocab.length ≤ limit then vocab
  else
    let ranked := (sortDescKey (fun t => corpusFreq docs t) vocab).take limit
    vocab.filter (fun t => ranked.contains t)

/-- The fitted state of the vectorizer that the engine observes: the final
vocabulary, its per-term document frequencies, and the corpus size. -/
structure TfidfModel where
  vocab : List String
  dfs : List ℕ
  nDocs : ℕ
deriving DecidableEq

/-- The vocabulary-fitting part of `TfidfVectorizer.fit_transform` with the
parameters of `_build_tfidf_matrix` (`ngram_range=(1,2)`, `min_df=2`,
`max_df=0.85`, `max_features=5000`; `lowercase=False`, `stop_words=None`).
`none` is sklearn raising `ValueError` — "empty vocabulary" or "After
pruning, no terms remain" — which the source catches.  The `max_df`
pruning bound `df ≤ 0.85 * n` is stated integrally as `100 * df ≤ 85 * n`,
an equivalent exact-rational comparison. -/
def fitVocab (texts : List String) : Option TfidfModel :=
  let docs := texts.map analyze
  let n := docs.length
  let raw := sortedVocab docs
  if raw.isEmpty then none
  else
    let pruned := raw.filter fun t =>
      2 ≤ docFreq docs t && 100 * docFreq docs t ≤ 85 * n
    if pruned.isEmpty then none
    else
      let kept := limitFeatures docs pruned 5000
      some { vocab := kept, dfs := kept.map (docFreq docs), nDocs := n }

/-- Smoothed inverse document frequency (`smooth_idf=True`, the default):
`idf(t) = ln((1 + n) / (1 + df(t))) + 1`. -/
noncomputable def idf (n df : ℕ) : ℝ := Real.log ((n + 1) / (df + 1)) + 1

/-- One TF-IDF-weighted row over an analyzed document: raw term count
times idf, one entry per vocabulary term.  `TfidfVectorizer` additionally
l2-normalises every row; the rows are consumed only by cosine-similarity
computations, which are invariant under that per-row scaling (and sklearn
leaves zero rows unchanged), so the embedding keeps the unnormalised
weighted counts. -/
noncomputable def weightRow (m : TfidfModel) (doc : List String) : List ℝ :=
  (m.vocab.zip m.dfs).map fun p => (countTerm doc p.1 : ℝ) * idf m.nDocs p.2

/-- Method `tfidf.transform` on a single string: project it into the fitted
vocabulary space (out-of-vocabulary terms contribute nothing). -/
noncomputable def transform (m : TfidfModel) (s : String) : List ℝ :=
  weightRow m (analyze s)

/-- Function `_build_tfidf_matrix`: fewer than 2 non-whitespace texts yield
`(None, None)`; otherwise the vectorizer is fitted on the full
`processed_texts` argument (only the `< 2` guard looks at the filtered
list) and the weighted matrix is returned row by row. -/
noncomputable def build_tfidf_matrix (ts : List String) : Option (TfidfModel × List (List ℝ)) :=
  if (ts.filter (fun t => !(trimChars t.data).isEmpty)).length < 2 then none
  else
    match fitVocab ts with
    | none => none
    | some m => some (m, ts.map (fun t => transform m t))

/-- Dot product of two real vectors. -/
def dotL (u v : List ℝ) : ℝ := (List.zipWith (fun a b => a * b) u v).sum

/-- Cosine similarity of two rows, as
`sklearn.metrics.pairwise.cosine_similarity` computes it: dot product over
the product of Euclidean norms.  A zero vector gives similarity `0`: real
division by zero is `0`, matching sklearn's guarded normalisation (zero
norms are replaced by 1, leaving the zero row zero). -/
noncomputable def cosineSim (u v : List ℝ) : ℝ :=
  dotL u v / (Real.sqrt (dotL u u) * Real.sqrt (dotL v v))

/-- Function `_calculate_similarity_matrix`: the full pairwise cosine
matrix.  Both source branches (dense `cosine_similarity(m, m)` and, for
more than 1000 rows, the sparse product densified with `toarray()`)
produce this same dense matrix; in the exact model the computation is
total, so the `except` branch returning `None` is unreachable and the
result is always `some`. -/
noncomputable def simMatrix (rows : List (List ℝ)) : List (List ℝ) :=
  rows.map fun u => rows.map fun v => cosineSim u v

/-- Option-wrapped entry point for the similarity matrix, the shape of
`_calculate_similarity_matrix`'s return value. -/
noncomputable def calcSimilarityMatrix (rows : List (List ℝ)) : Option (List (List ℝ)) :=
  some (simMatrix rows)

/-- One catalog row retained in the model: the cleaned record together
with its `processed_text` column (added in step 4 of the rebuild). -/
structure Row where
  record : Record
  processed_text : String
deriving DecidableEq

instance : Inhabited Row := ⟨⟨⟨"", "", "", "", "", none, none⟩, ""⟩⟩

/-- The engine's snapshot state: the instance variables of
`RecommendationEngine` (`inited` is the source's `is_initialized`). -/
structure EngineState where
  df : Option (List Row)
  tfidf : Option TfidfModel
  cosine_sim : Option (List (List ℝ))
  cache_ttl : ℚ
  last_update : ℚ
  inited : Bool

/-- The environment of one engine call: what the Firebase fetch returns
(`[]` models both an empty store and a fetch error, both of which
`_fetch_innovations_from_firebase` maps to `[]`), the stopword and stemmer
resources used by preprocessing, and the current wall-clock time
(`time.time()`, constant within one call). -/
structure Env where
  data : List RawRecord
  stop : List String
  stem : String → Option String
  now : ℚ

/-- Steps 1-4 of the rebuild: fetch, clean, combine, batch-preprocess, and
drop rows whose processed text is blank (`valid_indices`); the retained
rows keep their order and gain the `processed_text` column. -/
def preparedRows (env : Env) : List Row :=
  (((cleanData env.data).map fun r =>
      (⟨r, preprocess_text env.stop env.stem (combinedFeatures r)⟩ : Row)).filter
    fun row => !(trimChars row.processed_text.data).isEmpty)

/-- The body of `initialize_model` that runs inside `with self.lock`: the
critical section of the rebuild.  Every failure path returns `False`
without touching the state; only the final all-success path commits the
new snapshot (instance variables are assigned solely in step 7 of the
source). -/
noncomputable def lockedRebuild (env : Env) (st : EngineState) : Bool × EngineState :=
  if env.data.isEmpty then (false, st)
  else if (cleanData env.data).isEmpty then (false, st)
  else if (preparedRows env).length < 2 then (false, st)
  else
    match build_tfidf_matrix ((preparedRows env).map (fun r => r.processed_text)) with
    | none => (false, st)
    | some mpair =>
        match calcSimilarityMatrix mpair.2 with
        | none => (false, st)
        | some cs =>
            (true,
             { df := some (preparedRows env), tfidf := some mpair.1, cosine_sim := some cs,
               cache_ttl := st.cache_ttl, last_update := env.now, inited := true })

/-- Method `initialize_model` (renamed `initModel`; the original name
collides with a reserved word of the verification toolchain).  The TTL
fast path is checked before acquiring the lock and never re-checked
inside; `lockedRebuild` is the entire critical section. -/
noncomputable def initModel (env : Env) (force : Bool) (st : EngineState) :
    Bool × EngineState :=
  if force = false ∧ st.inited = true ∧ env.now - st.last_update < st.cache_ttl then (true, st)
  else lockedRebuild env st

/-- Method `force_refresh`: `initialize_model(force_refresh=True)`. -/
noncomputable def force_refresh (env : Env) (st : EngineState) : Bool × EngineState :=
  initModel env true st

/-- Round half to even, Python's `round` on an exact real. -/
noncomputable def rhe (y : ℝ) : ℤ :=
  if Int.fract y = 1 / 2 then 2 * round (y / 2) else round y

/-- Python `round(score, 4)`. -/
noncomputable def round4 (x : ℝ) : ℝ := (rhe (x * 10000) : ℝ) / 10000

/-- The result shape returned to the API layer
(`app/models/recommendation.RecommendationResponse`). -/
structure RecommendationResponse where
  id : String
  inovasi : String
  kategori : String
  deskripsi : String
  namaInnovator : String
  images : List String
  tahunDibuat : Option String
  similarity_score : ℝ

/-- Method `_process_recommendation_row`: materialize one row.  `images`
defaults to `[]` when missing or not a list, `tahunDibuat` stays optional,
and the score is rounded to 4 decimal places.  In the pure model the
per-row `try/except` has no failing case, so the result is total. -/
noncomputable def processRow (row : Row) (score : ℝ) : RecommendationResponse :=
  { id := row.record.id, inovasi := row.record.namaInovasi, kategori := row.record.kategori,
    deskripsi := row.record.deskripsi, namaInnovator := row.record.namaInnovator,
    images := row.record.images.getD [], tahunDibuat := row.record.tahunDibuat,
    similarity_score := round4 score }

/-- Steps 4-7 of `get_recommendations` on one similarity row: enumerate,
keep scores `>= min_similarity`, sort by score descending (stable), drop
the first entry (`sim_scores[1 : top_n + 1]`) and take `top_n`. -/
noncomputable def rankedPairs (simRow : List ℝ) (topN : ℕ) (minSim : ℝ) : List (ℕ × ℝ) :=
  (((sortDescKey (fun p => p.2)
      (simRow.enum.filter fun p => minSim ≤ p.2)).drop 1).take topN)

/-- Step 8 of `get_recommendations`: materialize the surviving pairs.  An
out-of-range row index would raise inside the source's `try`, turning the
whole call into `[]`.  The parallel branch (more than 10 results, a
4-worker pool with a 5 s per-row timeout) collects futures in submission
order and the model's rows never fail or time out, so one path models both
branches. -/
noncomputable def materialize (rows : List Row) (pairs : List (ℕ × ℝ)) :
    List RecommendationResponse :=
  if pairs.all (fun p => p.1 < rows.length) then
    pairs.map fun p => processRow (rows.getD p.1 default) p.2
  else []

/-- The post-refresh part of `get_recommendations`: locate the row of
`innovation_id` (first match), read its similarity row, rank and
materialize.  A missing id, or a snapshot with missing parts (which would
raise inside the `try`), yields `[]`. -/
noncomputable def recommendCore (st : EngineState) (innovationId : String) (topN : ℕ)
    (minSim : ℝ) : List RecommendationResponse :=
  match st.df, st.cosine_sim with
  | some rows, some cs =>
      match rows.findIdx? (fun r => r.record.id == innovationId) with
      | none => []
      | some idx => materialize rows (rankedPairs (cs.getD idx []) topN minSim)
  | _, _ => []

/-- The lazy-build step of `get_recommendations`: `if not
self.is_initialized: if not self.initialize_model(): return []`. -/
noncomputable def ensureInit (env : Env) (st : EngineState) : Bool × EngineState :=
  if st.inited then (true, st) else initModel env false st

/-- The TTL auto-refresh step of `get_recommendations`: `if (current_time -
self.last_update) > self.cache_ttl: if not self.initialize_model(): return
[]`. -/
noncomputable def ensureFreshTtl (env : Env) (st : EngineState) : Bool × EngineState :=
  if st.cache_ttl < env.now - st.last_update then initModel env false st else (true, st)

/-- Method `get_recommendations`: blank-id guard, lazy build when
uninitialized, TTL auto-refresh, then the ranking pipeline on the current
snapshot.  Returns the results with the post-call state. -/
noncomputable def get_recommendations (env : Env) (st : EngineState) (innovationId : String)
    (topN : ℕ) (minSim : ℝ) : List RecommendationResponse × EngineState :=
  if (trimChars innovationId.data).isEmpty then ([], st)
  else if (ensureInit env st).1 = false then ([], (ensureInit env st).2)
  else if (ensureFreshTtl env (ensureInit env st).2).1 = false then
    ([], (ensureFreshTtl env (ensureInit env st).2).2)
  else
    (recommendCore (ensureFreshTtl env (ensureInit env st).2).2 innovationId topN minSim,
     (ensureFreshTtl env (ensureInit env st).2).2)

/-- The per-row similarity scan of `search_innovations`: the transformed
query against every retained row's transformed processed text. -/
noncomputable def searchSims (m : TfidfModel) (rows : List Row) (pq : String) : List ℝ :=
  rows.map fun r => cosineSim (transform m pq) (transform m r.processed_text)

/-- The index selection of `search_innovations`:
`similarities.argsort()[-top_n:][::-1]`, i.e. the reversed ascending
argsort truncated to `top_n`. -/
noncomputable def searchTopIdx (sims : List ℝ) (topN : ℕ) : List ℕ :=
  (((sortAscKey (fun p => p.2) sims.enum).map fun p => p.1).reverse).take topN

/-- The materialization loop of `search_innovations`: each selected index
with similarity above the `0.01` threshold becomes a result row. -/
noncomputable def searchResults (rows : List Row) (sims : List ℝ) (topN : ℕ) :
    List RecommendationResponse :=
  (searchTopIdx sims topN).filterMap fun i =>
    if (1 : ℝ) / 100 < sims.getD i 0 then
      some (processRow (rows.getD i default) (sims.getD i 0))
    else none

/-- Method `search_innovations`: note the absence of any rebuild — an
uninitialized engine yields `[]` immediately, and the snapshot age is
never consulted.  The query is preprocessed, projected into the fitted
space, compared against every retained row, and the top `top_n` indices
with similarity `> 0.01` are materialized. -/
noncomputable def search_innovations (stop : List String) (stem : String → Option String)
    (st : EngineState) (query : String) (topN : ℕ) : List RecommendationResponse :=
  if !st.inited || (trimChars query.data).isEmpty then []
  else
    match st.df, st.tfidf with
    | some rows, some m =>
        if (preprocess_text stop stem query).data.isEmpty then []
        else searchResults rows (searchSims m rows (preprocess_text stop stem query)) topN
    | _, _ => []

/-- Values appearing in the `get_model_stats` report. -/
inductive SVal where
  | s : String → SVal
  | n : ℕ → SVal
  | q : ℚ → SVal
  | shape : ℕ → ℕ → SVal
  | null : SVal
deriving DecidableEq

/-- Method `get_model_stats`: the monitoring report as an ordered
key/value list mirroring the source dict. -/
def get_model_stats (st : EngineState) : List (String × SVal) :=
  if !st.inited then [("status", SVal.s "not_initialized")]
  else
    [("status", SVal.s "initialized"),
     ("total_innovations", SVal.n (match st.df with | some rows => rows.length | none => 0)),
     ("last_update", SVal.q st.last_update),
     ("cache_ttl", SVal.q st.cache_ttl),
     ("tfidf_features", SVal.n (match st.tfidf with | some m => m.vocab.length | none => 0)),
     ("similarity_matrix_shape",
      match st.cosine_sim with
      | some cs => SVal.shape cs.length (cs.headD []).length
      | none => SVal.null)]

/-- The identity stemmer, a convenient concrete stemmer for witnesses. -/
def idStem : String → Option String := fun s => some s

/-- An environment whose fetch returns nothing. -/
def envEmpty : Env := ⟨[], [], idStem, 0⟩

/-- The engine's state as constructed (`__init__` before its
`initialize_model()` call): nothing cached, TTL 3600, never updated. -/
def st0 : EngineState := ⟨none, none, none, 3600, 0, false⟩

/-- A catalog with a single (valid) record. -/
def envOne : Env :=
  ⟨[⟨some "r1", some "aa bb", some "k", some "n", some "x", none, none⟩], [], idStem, 0⟩

/-- Helper building a raw record with the given id, description and
category. -/
def rawRec (i d k : String) : RawRecord :=
  ⟨some i, some d, some k, some ("inovasi " ++ i), some "x", none, none⟩

/-- A 3-record catalog observed at time 0 whose build succeeds: the
unigram `aa` appears in 2 of the 3 documents, so it survives `min_df=2`
and `max_df=0.85` (with n=3 the bound is 2.55). -/
def envA : Env :=
  ⟨[rawRec "a1" "aa xx" "", rawRec "a2" "aa yy" "", rawRec "a3" "zz ww" ""], [], idStem, 0⟩

/-- The snapshot built from `envA` at time 0. -/
noncomputable def stA : EngineState := (initModel envA false st0).2

/-- A different 3-record catalog (the store contents changed). -/
def dataB : List RawRecord :=
  [rawRec "b1" "bb cc" "", rawRec "b2" "bb dd" "", rawRec "b3" "ee ff" ""]

/-- The changed store observed at a much later time (snapshot `stA` is
stale by then). -/
def envB : Env := ⟨dataB, [], idStem, 1000000⟩

/-- The changed store observed at time 0, while `stA` is still fresh. -/
def envB0 : Env := ⟨dataB, [], idStem, 0⟩

/-- The ordering guaranteed by the stable descending sort of
`get_recommendations`: scores are non-increasing, and among equal scores
the original (enumeration) index is ascending. -/
def DescStable (a b : ℕ × ℝ) : Prop := b.2 ≤ a.2 ∧ (a.2 = b.2 → a.1 < b.1)

/-- Matrix entry access, `matrix[i][j]` (out-of-range reads default to
`0`; all uses are guarded by bounds). -/
noncomputable def entryD (m : List (List ℝ)) (i j : ℕ) : ℝ := (m.getD i []).getD j 0

/-- A 3-record catalog with two twin records (`r1`, `r2` share the text
"aa bb"); every term of the third record appears in only one document and
is pruned by `min_df=2`, so `r3`'s TF-IDF row is zero. -/
def envDup : Env :=
  ⟨[rawRec "r1" "aa bb" "", rawRec "r2" "aa bb" "", rawRec "r3" "cc dd" ""], [], idStem, 0⟩

/-- The fitted vectorizer state for the `envDup` corpus: vocabulary
`["aa", "aa bb", "bb"]`, each in 2 of the 3 documents. -/
def model3 : TfidfModel := ⟨["aa", "aa bb", "bb"], [2, 2, 2], 3⟩

/-- The fitted vectorizer state for the `envA` corpus: only the unigram
`aa` survives pruning. -/
def modelA : TfidfModel := ⟨["aa"], [2], 3⟩

/-- The fitted vectorizer state for the `dataB` corpus: only the unigram
`bb` survives pruning. -/
def modelB : TfidfModel := ⟨["bb"], [2], 3⟩

/-- The engine state after a successful lazy build from `envDup`. -/
noncomputable def stDup : EngineState := (initModel envDup false st0).2

/-- A stemmer that stems "aaa" (to "bb") but raises on "zz". -/
def failStem : String → Option String := fun t => if t = "zz" then none else some "bb"

/-- Characters that every cleaning stage of `preprocess_text` leaves
untouched: lowercase-fixed word characters that are not digits, not
whitespace and not backslashes. -/
def goodChar (c : Char) : Bool :=
  (c.toLower = c) && isWordChar c && !c.isDigit && !isSpc c && !(c = '\\')

/-- A token of an already-normalized text that re-normalization preserves:
longer than one character, made of good characters, not a stopword, and a
fixed point of the stemmer. -/
def goodTok (stop : List String) (stem : String → Option String) (u : List Char) : Prop :=
  1 < u.length ∧ (∀ c ∈ u, goodChar c = true) ∧ (⟨u⟩ : String) ∉ stop ∧
    stem ⟨u⟩ = some ⟨u⟩

instance (stop : List String) (stem : String → Option String) (u : List Char) :
    Decidable (goodTok stop stem u) := by
  unfold goodTok
  infer_instance

/-- Prefixing a (non-empty) run of characters onto the first chunk of a
chunk list; the helper describing `chunksStep` folds over an appended
run. -/
def prependChunk : List Char → List (List Char) → List (List Char)
  | [], cs => cs
  | c :: u, [] => [c :: u]
  | c :: u, t :: ts => ((c :: u) ++ t) :: ts

/-- The fragment of the Sastrawi stemmer relevant here: the derived noun
"perkataan" (per-kata-an) reduces to its root "kata"; other tokens pass
through unchanged. -/
def kataStem : String → Option String := fun s => some (if s = "perkataan" then "kata" else s)

set_option maxRecDepth 1000000

/-! ### Structural facts about the rebuild path -/

/-- Every failure path of the critical section leaves the state untouched;
the single success path commits the freshly built snapshot wholesale. -/
theorem lockedRebuild_cases (env : Env) (st : EngineState) :
    lockedRebuild env st = (false, st) ∨
    (∃ mp, build_tfidf_matrix ((preparedRows env).map (fun r => r.processed_text)) = some mp ∧
      lockedRebuild env st =
        (true, { df := some (preparedRows env), tfidf := some mp.1,
                 cosine_sim := some (simMatrix mp.2),
                 cache_ttl := st.cache_ttl, last_update := env.now, inited := true })) := by
  unfold lockedRebuild
  split_ifs with h1 h2 h3
  · exact Or.inl rfl
  · exact Or.inl rfl
  · exact Or.inl rfl
  · rcases hb : build_tfidf_matrix ((preparedRows env).map (fun r => r.processed_text)) with _ | mp
    · exact Or.inl (by rw [hb])
    · refine Or.inr ⟨mp, hb, ?_⟩
      rw [hb]
      rfl

/-- A rebuild that reports failure has not mutated the state. -/
theorem lockedRebuild_false_eq (env : Env) (st : EngineState)
    (h : (lockedRebuild env st).1 = false) : (lockedRebuild env st).2 = st := by
  rcases lockedRebuild_cases env st with h' | ⟨mp, _, h'⟩
  · rw [h']
  · simp [h'] at h

/-- A failed `initialize_model` call (any branch) has not mutated the
state. -/
theorem initModel_false_eq (env : Env) (force : Bool) (st : EngineState)
    (h : (initModel env force st).1 = false) : (initModel env force st).2 = st := by
  unfold initModel at h ⊢
  by_cases hc : force = false ∧ st.inited = true ∧ env.now - st.last_update < st.cache_ttl
  · rw [if_pos hc] at h
    simp at h
  · rw [if_neg hc] at h ⊢
    exact lockedRebuild_false_eq env st h

/-- A rebuild with fewer than two retained rows fails without touching the
state, whatever the `force` flag. -/
theorem initModel_insufficient (env : Env) (force : Bool) (st : EngineState)
    (hst : st.inited = false) (h2 : (preparedRows env).length < 2) :
    initModel env force st = (false, st) := by
  unfold initModel
  rw [if_neg]
  · unfold lockedRebuild
    by_cases ha : env.data.isEmpty
    · rw [if_pos ha]
    · rw [if_neg ha]
      by_cases hcl : (cleanData env.data).isEmpty
      · rw [if_pos hcl]
      · rw [if_neg hcl, if_pos h2]
  · rintro ⟨-, hi, -⟩
    rw [hst] at hi
    cases hi

/-- An uninitialized engine with an insufficient catalog returns no
recommendations: the lazy build fails and the call degrades to `[]`. -/
theorem recommend_insufficient (env : Env) (st : EngineState) (innovationId : String)
    (tn : ℕ) (ms : ℝ) (hst : st.inited = false) (h2 : (preparedRows env).length < 2) :
    (get_recommendations env st innovationId tn ms).1 = [] := by
  unfold get_recommendations
  have hinit : ensureInit env st = (false, st) := by
    unfold ensureInit
    rw [hst]
    simpa using initModel_insufficient env false st hst h2
  by_cases hb : (trimChars innovationId.data).isEmpty
  · rw [if_pos hb]
  · rw [if_neg hb]
    simp [hinit]

/-- `search_innovations` on an uninitialized engine is `[]`. -/
theorem search_uninit (stop : List String) (stem : String → Option String) (st : EngineState)
    (q : String) (tn : ℕ) (hst : st.inited = false) :
    search_innovations stop stem st q tn = [] := by
  unfold search_innovations
  rw [hst]
  rfl

/-- `get_model_stats` on an uninitialized engine reports only the status. -/
theorem stats_uninit (st : EngineState) (hst : st.inited = false) :
    get_model_stats st = [("status", SVal.s "not_initialized")] := by
  unfold get_model_stats
  rw [hst]
  rfl

/-- C1: for every rebuild attempt (`initialize_model` / `force_refresh`),
if any step fails — empty fetch, no valid rows after cleaning, fewer than 2
valid processed texts, TF-IDF build failure, similarity computation
failure, or any raised exception — the call returns failure and the
previously committed snapshot state (`df`, `tfidf`, `cosine_sim`,
`last_update`, `is_initialized`) is left exactly as it was before the
call. -/
theorem c1_failed_rebuild_preserves_state :
    (∀ (env : Env) (force : Bool) (st : EngineState),
        (initModel env force st).1 = false → (initModel env force st).2 = st) ∧
    (∀ (env : Env) (st : EngineState),
        (force_refresh env st).1 = false → (force_refresh env st).2 = st) :=
  ⟨fun env force st h => initModel_false_eq env force st h,
   fun env st h => initModel_false_eq env true st h⟩

/-- Witness for C1: with an empty fetch the rebuild fails and the fresh
state is returned unchanged. -/
theorem c1_witness :
    (initModel envEmpty false st0).1 = false ∧ (initModel envEmpty false st0).2 = st0 :=
  ⟨rfl, c1_failed_rebuild_preserves_state.1 envEmpty false st0 rfl⟩

/-- C5: for every catalog whose records yield fewer than 2 non-whitespace
normalized texts, the model build returns failure (and the vector-space
builder `_build_tfidf_matrix` yields null for fewer than 2 valid texts),
`recommend` and `search` both return empty sequences, and
`get_model_stats()` reports not-initialized, assuming no prior successful
build (`is_initialized` false). -/
theorem c5_insufficient_data :
    (∀ ts : List String,
        (ts.filter (fun t => !(trimChars t.data).isEmpty)).length < 2 →
        build_tfidf_matrix ts = none) ∧
    (∀ (env : Env) (force : Bool) (st : EngineState), st.inited = false →
        (preparedRows env).length < 2 → initModel env force st = (false, st)) ∧
    (∀ (env : Env) (st : EngineState) (innovationId : String) (tn : ℕ) (ms : ℝ),
        st.inited = false → (preparedRows env).length < 2 →
        (get_recommendations env st innovationId tn ms).1 = []) ∧
    (∀ (stop : List String) (stem : String → Option String) (st : EngineState) (q : String)
        (tn : ℕ), st.inited = false → search_innovations stop stem st q tn = []) ∧
    (∀ st : EngineState, st.inited = false →
        get_model_stats st = [("status", SVal.s "not_initialized")]) := by
  refine ⟨fun ts h => ?_, initModel_insufficient, recommend_insufficient,
          search_uninit, stats_uninit⟩
  unfold build_tfidf_matrix
  rw [if_pos h]

/-- Witness for C5: one valid record — the build fails, retrieval calls
degrade to `[]`, the stats report stays not-initialized. -/
theorem c5_witness :
    (preparedRows envOne).length < 2 ∧
    build_tfidf_matrix ((preparedRows envOne).map (fun r => r.processed_text)) = none ∧
    initModel envOne false st0 = (false, st0) ∧
    (get_recommendations envOne st0 "r1" 5 (1 / 100)).1 = [] ∧
    search_innovations [] idStem st0 "aa" 10 = [] ∧
    get_model_stats st0 = [("status", SVal.s "not_initialized")] := by
  refine ⟨by decide, ?_, ?_, ?_, ?_, ?_⟩
  · exact c5_insufficient_data.1 _ (by decide)
  · exact c5_insufficient_data.2.1 envOne false st0 rfl (by decide)
  · exact c5_insufficient_data.2.2.1 envOne st0 "r1" 5 (1 / 100) rfl (by decide)
  · exact c5_insufficient_data.2.2.2.1 [] idStem st0 "aa" 10 rfl
  · exact c5_insufficient_data.2.2.2.2 st0 rfl

/-- C10: when the model has never been successfully built
(`is_initialized` false), `get_model_stats()` returns a report containing
only the status field with value `not_initialized`; none of the other
documented fields — total record count, last build time, TTL, vocabulary
size, matrix dimensions — are present. -/
theorem c10_stats_only_status (st : EngineState) (hst : st.inited = false) :
    get_model_stats st = [("status", SVal.s "not_initialized")] ∧
    (get_model_stats st).map Prod.fst = ["status"] := by
  have h := stats_uninit st hst
  exact ⟨h, by rw [h]; rfl⟩

/-- Witness for C10 on the freshly constructed state. -/
theorem c10_witness :
    get_model_stats st0 = [("status", SVal.s "not_initialized")] ∧
    (get_model_stats st0).map Prod.fst = ["status"] :=
  c10_stats_only_status st0 rfl


/-- C4 (amended): rebuild attempts are serialized by the single lock, but
the staleness condition is checked only before acquiring it and never
re-checked inside: the critical section's success flag and, on success,
its committed snapshot are independent of the freshness fields
(`is_initialized`, `last_update`), so a caller that waited while a
concurrent rebuild committed a fresh snapshot still performs the full
redundant rebuild once inside the region. -/
theorem c4_no_recheck_inside_lock (env : Env) (st : EngineState) (lu : ℚ) (b : Bool) :
    (lockedRebuild env { st with last_update := lu, inited := b }).1 =
      (lockedRebuild env st).1 ∧
    ((lockedRebuild env st).1 = true →
      (lockedRebuild env { st with last_update := lu, inited := b }).2 =
        (lockedRebuild env st).2) := by
  unfold lockedRebuild
  split_ifs
  · exact ⟨rfl, fun h => nomatch h⟩
  · exact ⟨rfl, fun h => nomatch h⟩
  · exact ⟨rfl, fun h => nomatch h⟩
  · rcases hb : build_tfidf_matrix ((preparedRows env).map (fun r => r.processed_text)) with _ | mp
    · rw [hb]
      exact ⟨rfl, fun h => nomatch h⟩
    · rw [hb]
      exact ⟨rfl, fun _ => rfl⟩

/-- C4 counterexample: `stA` is initialized and fresh at time 0 — the
staleness condition a re-check would test is false — yet the critical
section run by a caller that waited on the lock rebuilds unconditionally
and replaces the snapshot, refuting the claimed re-check. -/
theorem c4_counterexample :
    stA.inited = true ∧ envB0.now - stA.last_update < stA.cache_ttl ∧
    (lockedRebuild envB0 stA).1 = true ∧
    (lockedRebuild envB0 stA).2.df ≠ stA.df := by
  refine ⟨rfl, ?_, rfl, ?_⟩
  · show (0 : ℚ) - 0 < 3600
    norm_num
  · decide

/-- Witness for C4: changing only the freshness fields of the state does
not change the critical section's outcome on a concrete environment. -/
theorem c4_witness :
    (lockedRebuild envB0 { stA with last_update := 99, inited := false }).1 =
      (lockedRebuild envB0 stA).1 ∧
    (lockedRebuild envB0 { stA with last_update := 99, inited := false }).2 =
      (lockedRebuild envB0 stA).2 :=
  ⟨(c4_no_recheck_inside_lock envB0 stA 99 false).1,
   (c4_no_recheck_inside_lock envB0 stA 99 false).2 rfl⟩


/-- A successful `initialize_model` call preserves the TTL, and either hit
the fast path (state unchanged and fresh) or committed a snapshot stamped
with the current time. -/
theorem initModel_true_fresh (env : Env) (force : Bool) (st : EngineState)
    (h : (initModel env force st).1 = true) :
    (initModel env force st).2.cache_ttl = st.cache_ttl ∧
    (((initModel env force st).2 = st ∧ st.inited = true ∧
        env.now - st.last_update < st.cache_ttl) ∨
      ((initModel env force st).2.inited = true ∧
       (initModel env force st).2.last_update = env.now)) := by
  unfold initModel at h ⊢
  by_cases hc : force = false ∧ st.inited = true ∧ env.now - st.last_update < st.cache_ttl
  · rw [if_pos hc] at h ⊢
    exact ⟨rfl, Or.inl ⟨rfl, hc.2.1, hc.2.2⟩⟩
  · rw [if_neg hc] at h ⊢
    rcases lockedRebuild_cases env st with h' | ⟨mp, hb, h'⟩
    · simp [h'] at h
    · rw [h']
      exact ⟨rfl, Or.inr ⟨rfl, rfl⟩⟩

/-- After `ensureInit` reports success the state is initialized, the TTL
is unchanged, and the state is either untouched or freshly stamped. -/
theorem ensureInit_true (env : Env) (st : EngineState)
    (h : (ensureInit env st).1 ≠ false) :
    (ensureInit env st).2.inited = true ∧
    (ensureInit env st).2.cache_ttl = st.cache_ttl ∧
    ((ensureInit env st).2 = st ∨ (ensureInit env st).2.last_update = env.now) := by
  unfold ensureInit at h ⊢
  by_cases hi : st.inited = true
  · rw [if_pos hi] at h ⊢
    exact ⟨hi, rfl, Or.inl rfl⟩
  · rw [if_neg hi] at h ⊢
    have ht : (initModel env false st).1 = true := by
      cases hh : (initModel env false st).1
      · exact absurd hh h
      · rfl
    rcases (initModel_true_fresh env false st ht).2 with ⟨-, hini, -⟩ | ⟨ha, hb⟩
    · exact absurd hini hi
    · exact ⟨ha, (initModel_true_fresh env false st ht).1, Or.inr hb⟩

/-- After `ensureFreshTtl` reports success on an initialized state with a
non-negative TTL, the resulting snapshot is initialized and fresh with
respect to the call's clock. -/
theorem ensureFreshTtl_true (env : Env) (st : EngineState)
    (h : (ensureFreshTtl env st).1 ≠ false) (hini : st.inited = true)
    (httl : 0 ≤ st.cache_ttl) :
    (ensureFreshTtl env st).2.inited = true ∧
    env.now - (ensureFreshTtl env st).2.last_update ≤
      (ensureFreshTtl env st).2.cache_ttl := by
  unfold ensureFreshTtl at h ⊢
  by_cases hs : st.cache_ttl < env.now - st.last_update
  · rw [if_pos hs] at h ⊢
    have ht : (initModel env false st).1 = true := by
      cases hh : (initModel env false st).1
      · exact absurd hh h
      · rfl
    have hf := initModel_true_fresh env false st ht
    rcases hf.2 with ⟨-, -, hlt⟩ | ⟨ha, hb⟩
    · exact (lt_asymm hs hlt).elim
    · refine ⟨ha, ?_⟩
      rw [hb, hf.1]
      simpa using httl
  · rw [if_neg hs] at h ⊢
    exact ⟨hini, le_of_not_lt hs⟩

/-- C3 (corrected): `get_recommendations` does follow the
rebuild-before-answering discipline — any call returning a non-empty
result leaves behind an initialized snapshot that is fresh with respect to
the call's clock (either it was already within the TTL or a synchronous
rebuild just stamped it); `search_innovations`, by contrast, never
rebuilds: an absent snapshot yields `[]` immediately and the snapshot's
age is ignored — the result is invariant under changing `last_update`. -/
theorem c3_fresh_on_recommend_only :
    (∀ (env : Env) (st : EngineState) (innovationId : String) (tn : ℕ) (ms : ℝ),
        0 ≤ st.cache_ttl →
        (get_recommendations env st innovationId tn ms).1 ≠ [] →
        (get_recommendations env st innovationId tn ms).2.inited = true ∧
        env.now - (get_recommendations env st innovationId tn ms).2.last_update ≤
          (get_recommendations env st innovationId tn ms).2.cache_ttl) ∧
    (∀ (stop : List String) (stem : String → Option String) (st : EngineState) (q : String)
        (tn : ℕ), st.inited = false → search_innovations stop stem st q tn = []) ∧
    (∀ (stop : List String) (stem : String → Option String) (st : EngineState) (q : String)
        (tn : ℕ) (lu : ℚ),
        search_innovations stop stem { st with last_update := lu } q tn =
          search_innovations stop stem st q tn) := by
  refine ⟨fun env st innovationId tn ms httl h => ?_, search_uninit,
          fun stop stem st q tn lu => rfl⟩
  unfold get_recommendations at h ⊢
  by_cases hb : (trimChars innovationId.data).isEmpty
  · rw [if_pos hb] at h
    exact absurd rfl h
  · rw [if_neg hb] at h ⊢
    by_cases h1 : (ensureInit env st).1 = false
    · rw [if_pos h1] at h
      exact absurd rfl h
    · rw [if_neg h1] at h ⊢
      by_cases h2 : (ensureFreshTtl env (ensureInit env st).2).1 = false
      · rw [if_pos h2] at h
        exact absurd rfl h
      · rw [if_neg h2] at h ⊢
        have hi := ensureInit_true env st h1
        have httl2 : 0 ≤ (ensureInit env st).2.cache_ttl := by
          rw [hi.2.1]
          exact httl
        exact ensureFreshTtl_true env (ensureInit env st).2 h2 hi.1 httl2


/-! ### The stable descending sort -/

theorem mem_insDesc {α β : Type} [LinearOrder β] (key : α → β) (x : α) (l : List α)
    (z : α) (hz : z ∈ insDesc key x l) : z = x ∨ z ∈ l := by
  induction l with
  | nil =>
      rw [insDesc] at hz
      exact Or.inl (List.mem_singleton.mp hz)
  | cons y ys ih =>
      rw [insDesc] at hz
      by_cases hlt : key x < key y
      · rw [if_pos hlt] at hz
        rcases List.mem_cons.mp hz with rfl | hz'
        · exact Or.inr (List.mem_cons_self _ _)
        · rcases ih hz' with h | h
          · exact Or.inl h
          · exact Or.inr (List.mem_cons_of_mem _ h)
      · rw [if_neg hlt] at hz
        rcases List.mem_cons.mp hz with rfl | hz'
        · exact Or.inl rfl
        · exact Or.inr hz'

theorem mem_sortDescKey {α β : Type} [LinearOrder β] (key : α → β) (l : List α)
    (z : α) (hz : z ∈ sortDescKey key l) : z ∈ l := by
  induction l with
  | nil => simpa [sortDescKey] using hz
  | cons x xs ih =>
      rw [sortDescKey] at hz
      rcases mem_insDesc key x (sortDescKey key xs) z hz with rfl | hz'
      · exact List.mem_cons_self _ _
      · exact List.mem_cons_of_mem _ (ih hz')

theorem insDesc_sorted (x : ℕ × ℝ) (l : List (ℕ × ℝ))
    (hs : l.Pairwise DescStable) (hx : ∀ y ∈ l, x.1 < y.1) :
    (insDesc (fun p => p.2) x l).Pairwise DescStable := by
  induction l with
  | nil => simp [insDesc]
  | cons y ys ih =>
      rw [insDesc]
      rcases List.pairwise_cons.mp hs with ⟨hy, hys⟩
      by_cases hlt : x.2 < y.2
      · rw [if_pos hlt]
        refine List.pairwise_cons.mpr ⟨?_, ih hys (fun z hz => hx z (List.mem_cons_of_mem y hz))⟩
        intro z hz
        rcases mem_insDesc (fun p => p.2) x ys z hz with rfl | hz'
        · exact ⟨le_of_lt hlt, fun he => absurd hlt (by rw [he]; exact lt_irrefl _)⟩
        · exact hy z hz'
      · rw [if_neg hlt]
        refine List.pairwise_cons.mpr ⟨?_, hs⟩
        intro z hz
        rcases List.mem_cons.mp hz with rfl | hz'
        · exact ⟨le_of_not_lt hlt, fun _ => hx z (List.mem_cons_self _ _)⟩
        · exact ⟨le_trans (hy z hz').1 (le_of_not_lt hlt),
                 fun _ => hx z (List.mem_cons_of_mem y hz')⟩

/-- The stable descending insertion sort of an index-ascending list is
sorted with ties in original index order. -/
theorem sortDescKey_sorted (l : List (ℕ × ℝ)) (h : l.Pairwise (fun a b => a.1 < b.1)) :
    (sortDescKey (fun p => p.2) l).Pairwise DescStable := by
  induction l with
  | nil => simp [sortDescKey]
  | cons x xs ih =>
      rw [sortDescKey]
      rcases List.pairwise_cons.mp h with ⟨hx, hxs⟩
      exact insDesc_sorted x _ (ih hxs)
        (fun y hy => hx y (mem_sortDescKey (fun p => p.2) xs y hy))

theorem enumFrom_pairwise {α : Type} (l : List α) (n : ℕ) :
    (List.enumFrom n l).Pairwise (fun a b => a.1 < b.1) := by
  induction l generalizing n with
  | nil => simp
  | cons x xs ih =>
      rw [List.enumFrom]
      refine List.pairwise_cons.mpr ⟨?_, ih (n + 1)⟩
      intro z hz
      have := List.le_fst_of_mem_enumFrom hz
      omega

theorem enum_pairwise {α : Type} (l : List α) :
    (List.enum l).Pairwise (fun a b => a.1 < b.1) :=
  enumFrom_pairwise l 0

/-- The ranked pair list of `get_recommendations` is sorted: scores
non-increasing, ties broken by ascending original row index. -/
theorem rankedPairs_pairwise (simRow : List ℝ) (tn : ℕ) (ms : ℝ) :
    (rankedPairs simRow tn ms).Pairwise DescStable := by
  unfold rankedPairs
  have h1 : (simRow.enum.filter fun p => decide (ms ≤ p.2)).Pairwise
      (fun a b : ℕ × ℝ => a.1 < b.1) :=
    (enum_pairwise simRow).filter _
  have h2 := sortDescKey_sorted _ h1
  exact ((h2.sublist (List.drop_sublist 1 _)).sublist (List.take_sublist tn _))

/-! ### Round half to even -/

theorem rhe_of_fract_lt {y : ℝ} (h : Int.fract y < 1 / 2) : rhe y = ⌊y⌋ := by
  unfold rhe
  rw [if_neg (by exact ne_of_lt h), round_eq, Int.floor_eq_iff]
  constructor
  · push_cast
    linarith [Int.floor_le y]
  · push_cast
    have hy : y = (⌊y⌋ : ℝ) + Int.fract y := (Int.floor_add_fract y).symm
    linarith

theorem rhe_of_fract_gt {y : ℝ} (h : 1 / 2 < Int.fract y) : rhe y = ⌊y⌋ + 1 := by
  unfold rhe
  rw [if_neg (by exact ne_of_gt h), round_eq, Int.floor_eq_iff]
  have hy : y = (⌊y⌋ : ℝ) + Int.fract y := (Int.floor_add_fract y).symm
  have h1 : Int.fract y < 1 := Int.fract_lt_one y
  constructor
  · push_cast
    linarith
  · push_cast
    linarith

theorem rhe_tie_cases {y : ℝ} (h : Int.fract y = 1 / 2) :
    rhe y = ⌊y⌋ ∨ rhe y = ⌊y⌋ + 1 := by
  unfold rhe
  rw [if_pos h, round_eq]
  have hy : y = (⌊y⌋ : ℝ) + 1 / 2 := by
    have := Int.floor_add_fract y
    rw [h] at this
    linarith
  rcases Int.even_or_odd ⌊y⌋ with ⟨m, hm⟩ | ⟨m, hm⟩
  · left
    have : y / 2 + 1 / 2 = (m : ℝ) + 3 / 4 := by
      rw [hy, hm]
      push_cast
      ring
    rw [this, Int.floor_int_add]
    have h34 : ⌊(3 : ℝ) / 4⌋ = 0 := by
      rw [Int.floor_eq_iff] <;> norm_num
    rw [h34, hm]
    ring
  · right
    have : y / 2 + 1 / 2 = (m : ℝ) + 5 / 4 := by
      rw [hy, hm]
      push_cast
      ring
    rw [this, Int.floor_int_add]
    have h54 : ⌊(5 : ℝ) / 4⌋ = 1 := by
      rw [Int.floor_eq_iff] <;> norm_num
    rw [h54, hm]
    ring

theorem rhe_ge_floor (y : ℝ) : ⌊y⌋ ≤ rhe y := by
  rcases lt_trichotomy (Int.fract y) (1 / 2) with h | h | h
  · rw [rhe_of_fract_lt h]
  · rcases rhe_tie_cases h with h' | h' <;> omega
  · rw [rhe_of_fract_gt h]
    omega

theorem rhe_le_floor_succ (y : ℝ) : rhe y ≤ ⌊y⌋ + 1 := by
  rcases lt_trichotomy (Int.fract y) (1 / 2) with h | h | h
  · rw [rhe_of_fract_lt h]
    omega
  · rcases rhe_tie_cases h with h' | h' <;> omega
  · rw [rhe_of_fract_gt h]

/-- Round half to even is monotone. -/
theorem rhe_mono {y z : ℝ} (h : y ≤ z) : rhe y ≤ rhe z := by
  rcases lt_or_eq_of_le (Int.floor_le_floor h) with hf | hf
  · calc rhe y ≤ ⌊y⌋ + 1 := rhe_le_floor_succ y
      _ ≤ ⌊z⌋ := by omega
      _ ≤ rhe z := rhe_ge_floor z
  · have hfr : Int.fract y ≤ Int.fract z := by
      unfold Int.fract
      rw [hf]
      linarith
    rcases lt_trichotomy (Int.fract y) (1 / 2) with h1 | h1 | h1
    · rw [rhe_of_fract_lt h1, hf]
      exact rhe_ge_floor z
    · rcases lt_trichotomy (Int.fract z) (1 / 2) with h2 | h2 | h2
      · linarith
      · have hyz : y = z := by
          have hy := Int.floor_add_fract y
          have hz := Int.floor_add_fract z
          rw [h1] at hy
          rw [h2] at hz
          rw [hf] at hy
          linarith
        rw [hyz]
      · rw [rhe_of_fract_gt h2, ← hf]
        exact rhe_le_floor_succ y
    · have h2 : 1 / 2 < Int.fract z := lt_of_lt_of_le h1 hfr
      rw [rhe_of_fract_gt h1, rhe_of_fract_gt h2, hf]

/-- `round(x, 4)` is monotone. -/
theorem round4_mono {y z : ℝ} (h : y ≤ z) : round4 y ≤ round4 z := by
  unfold round4
  have := rhe_mono (mul_le_mul_of_nonneg_right h (by norm_num : (0:ℝ) ≤ 10000))
  have hcast : ((rhe (y * 10000)) : ℝ) ≤ ((rhe (z * 10000)) : ℝ) := by exact_mod_cast this
  linarith


theorem materialize_scores_sorted (rows : List Row) (pairs : List (ℕ × ℝ))
    (h : pairs.Pairwise DescStable) :
    ((materialize rows pairs).map (fun r => r.similarity_score)).Pairwise
      (fun a b => b ≤ a) := by
  unfold materialize
  split
  · rw [List.map_map, List.pairwise_map]
    refine h.imp ?_
    intro a b hab
    exact round4_mono hab.1
  · simp

/-- C8: for every call to `get_recommendations`, the results are ordered
non-increasingly by `similarity_score` (rounding to 4 decimals is
monotone), and in the underlying ranked pair list ties between equal raw
scores are broken by ascending original row order (the sort is stable), so
the output order is deterministic for a fixed snapshot. -/
theorem c8_ranking_sorted :
    (∀ (simRow : List ℝ) (tn : ℕ) (ms : ℝ),
        (rankedPairs simRow tn ms).Pairwise DescStable) ∧
    (∀ (env : Env) (st : EngineState) (innovationId : String) (tn : ℕ) (ms : ℝ),
        ((get_recommendations env st innovationId tn ms).1.map
            (fun r => r.similarity_score)).Pairwise (fun a b => b ≤ a)) := by
  refine ⟨rankedPairs_pairwise, fun env st innovationId tn ms => ?_⟩
  unfold get_recommendations
  split
  · simp
  · split
    · simp
    · split
      · simp
      · unfold recommendCore
        split
        · split
          · simp
          · exact materialize_scores_sorted _ _ (rankedPairs_pairwise _ tn ms)
        · simp


/-! ### Cosine similarity -/

theorem dotL_comm (u v : List ℝ) : dotL u v = dotL v u := by
  unfold dotL
  rw [List.zipWith_comm_of_comm]
  exact mul_comm

theorem dotL_cons (x y : ℝ) (xs ys : List ℝ) :
    dotL (x :: xs) (y :: ys) = x * y + dotL xs ys := rfl

theorem dotL_self_nonneg (v : List ℝ) : 0 ≤ dotL v v := by
  induction v with
  | nil => simp [dotL]
  | cons x xs ih =>
      rw [dotL_cons]
      exact add_nonneg (mul_self_nonneg x) ih

theorem dotL_self_eq_zero_iff (v : List ℝ) : dotL v v = 0 ↔ ∀ x ∈ v, x = 0 := by
  induction v with
  | nil => simp [dotL]
  | cons x xs ih =>
      rw [dotL_cons, add_eq_zero_iff_of_nonneg (mul_self_nonneg x) (dotL_self_nonneg xs),
        mul_self_eq_zero, ih]
      simp

theorem dotL_zero_left (u : List ℝ) :
    ∀ v : List ℝ, (∀ x ∈ u, x = 0) → dotL u v = 0 := by
  induction u with
  | nil =>
      intro v h
      simp [dotL]
  | cons x xs ih =>
      intro v h
      cases v with
      | nil => simp [dotL]
      | cons y ys =>
          rw [dotL_cons, h x (List.mem_cons_self _ _), zero_mul, zero_add]
          exact ih ys (fun z hz => h z (List.mem_cons_of_mem _ hz))

theorem cosineSim_comm (u v : List ℝ) : cosineSim u v = cosineSim v u := by
  unfold cosineSim
  rw [dotL_comm u v, mul_comm]

theorem cosineSim_self_of_ne (v : List ℝ) (h : dotL v v ≠ 0) : cosineSim v v = 1 := by
  unfold cosineSim
  rw [Real.mul_self_sqrt (dotL_self_nonneg v)]
  exact div_self h

theorem cosineSim_zero_left (u v : List ℝ) (h : ∀ x ∈ u, x = 0) : cosineSim u v = 0 := by
  unfold cosineSim
  rw [dotL_zero_left u v h, zero_div]

theorem getD_map {α β : Type} (f : α → β) (l : List α) (i : ℕ) (d : β) (d' : α)
    (hi : i < l.length) : (l.map f).getD i d = f (l.getD i d') := by
  rw [List.getD_eq_get?, List.getD_eq_get?, List.get?_map, List.get?_eq_get hi]
  rfl

theorem entryD_simMatrix (rows : List (List ℝ)) (i j : ℕ)
    (hi : i < rows.length) (hj : j < rows.length) :
    entryD (simMatrix rows) i j = cosineSim (rows.getD i []) (rows.getD j []) := by
  unfold entryD simMatrix
  rw [getD_map _ rows i [] [] hi, getD_map _ rows j 0 [] hj]

/-- Components of a successful rebuild: the committed snapshot stores the
prepared rows and the cosine matrix of the TF-IDF rows, one weighted row
per retained record. -/
theorem build_tfidf_rows (ts : List String) (mp : TfidfModel × List (List ℝ))
    (h : build_tfidf_matrix ts = some mp) : mp.2 = ts.map (transform mp.1) := by
  unfold build_tfidf_matrix at h
  split_ifs at h
  rcases hf : fitVocab ts with _ | m
  · rw [hf] at h
    cases h
  · rw [hf] at h
    cases h
    rfl


/-- Shape of a successful rebuild: the snapshot stores the prepared rows
and the cosine matrix of one TF-IDF row per retained record. -/
theorem lockedRebuild_true_shape (env : Env) (st : EngineState)
    (h : (lockedRebuild env st).1 = true) :
    ∃ W : List (List ℝ),
      (lockedRebuild env st).2.cosine_sim = some (simMatrix W) ∧
      (lockedRebuild env st).2.df = some (preparedRows env) ∧
      W.length = (preparedRows env).length := by
  rcases lockedRebuild_cases env st with h' | ⟨mp, hb, h'⟩
  · simp [h'] at h
  · rw [h']
    refine ⟨mp.2, rfl, rfl, ?_⟩
    rw [build_tfidf_rows _ mp hb]
    simp

/-- C9 (corrected): for every successfully built model, the similarity
matrix is square with one row and column per retained record and is
symmetric; each diagonal entry equals `1` unless the record's TF-IDF
vector is zero (every one of its terms was pruned by `min_df`/`max_df`),
in which case its entire row — the diagonal entry included — is `0`. -/
theorem c9_matrix_shape (env : Env) (st : EngineState)
    (h : (lockedRebuild env st).1 = true) :
    ((lockedRebuild env st).2.cosine_sim.getD []).length =
        ((lockedRebuild env st).2.df.getD []).length ∧
    (∀ r ∈ (lockedRebuild env st).2.cosine_sim.getD [],
        r.length = ((lockedRebuild env st).2.cosine_sim.getD []).length) ∧
    (∀ i j, i < ((lockedRebuild env st).2.cosine_sim.getD []).length →
        j < ((lockedRebuild env st).2.cosine_sim.getD []).length →
        entryD ((lockedRebuild env st).2.cosine_sim.getD []) i j =
          entryD ((lockedRebuild env st).2.cosine_sim.getD []) j i) ∧
    (∀ i, i < ((lockedRebuild env st).2.cosine_sim.getD []).length →
        entryD ((lockedRebuild env st).2.cosine_sim.getD []) i i = 1 ∨
        (∀ j, j < ((lockedRebuild env st).2.cosine_sim.getD []).length →
          entryD ((lockedRebuild env st).2.cosine_sim.getD []) i j = 0)) := by
  rcases lockedRebuild_true_shape env st h with ⟨W, hcs, hdf, hlen⟩
  rw [hcs, hdf]
  simp only [Option.getD_some]
  have hml : (simMatrix W).length = W.length := by
    unfold simMatrix
    simp
  refine ⟨by rw [hml, hlen], ?_, ?_, ?_⟩
  · intro r hr
    rcases List.mem_map.mp hr with ⟨u, -, rfl⟩
    rw [hml]
    simp
  · intro i j hi hj
    rw [hml] at hi hj
    rw [entryD_simMatrix W i j hi hj, entryD_simMatrix W j i hj hi, cosineSim_comm]
  · intro i hi
    rw [hml] at hi
    by_cases hz : dotL (W.getD i []) (W.getD i []) = 0
    · right
      intro j hj
      rw [hml] at hj
      rw [entryD_simMatrix W i j hi hj]
      exact cosineSim_zero_left _ _ ((dotL_self_eq_zero_iff _).mp hz)
    · left
      rw [entryD_simMatrix W i i hi hi]
      exact cosineSim_self_of_ne _ hz


/-- C9 counterexample: in the model built from `envDup`, record `r3`
("cc dd") keeps a zero TF-IDF row (all its terms have document frequency
1, below `min_df=2`), so its similarity-matrix diagonal entry is `0`, not
`1.0` as the claim states for every diagonal entry. -/
theorem c9_counterexample :
    (lockedRebuild envDup st0).1 = true ∧
    entryD ((lockedRebuild envDup st0).2.cosine_sim.getD []) 2 2 = 0 ∧
    entryD ((lockedRebuild envDup st0).2.cosine_sim.getD []) 2 2 ≠ 1 := by
  have h22 : entryD ((lockedRebuild envDup st0).2.cosine_sim.getD []) 2 2 =
      cosineSim (transform model3 "cc dd") (transform model3 "cc dd") := rfl
  have hz : transform model3 "cc dd" =
      [((0 : ℕ) : ℝ) * idf 3 2, ((0 : ℕ) : ℝ) * idf 3 2, ((0 : ℕ) : ℝ) * idf 3 2] := rfl
  have hz0 : ∀ x ∈ transform model3 "cc dd", x = (0 : ℝ) := by
    rw [hz]
    intro x hx
    simp only [List.mem_cons, List.not_mem_nil, or_false] at hx
    rcases hx with rfl | rfl | rfl <;> norm_num
  refine ⟨rfl, ?_, ?_⟩
  · rw [h22]
    exact cosineSim_zero_left _ _ hz0
  · rw [h22, cosineSim_zero_left _ _ hz0]
    norm_num

/-- Witness for C9 on the `envDup` build: the matrix is square of the
retained-record count and symmetric at a concrete pair of indices. -/
theorem c9_witness :
    (lockedRebuild envDup st0).1 = true ∧
    ((lockedRebuild envDup st0).2.cosine_sim.getD []).length =
        ((lockedRebuild envDup st0).2.df.getD []).length ∧
    entryD ((lockedRebuild envDup st0).2.cosine_sim.getD []) 0 1 =
      entryD ((lockedRebuild envDup st0).2.cosine_sim.getD []) 1 0 :=
  ⟨rfl, (c9_matrix_shape envDup st0 rfl).1,
   (c9_matrix_shape envDup st0 rfl).2.2.1 0 1 (by decide) (by decide)⟩


/-! ### Concrete evaluation of the `envDup` model -/

theorem idf_pos (n df : ℕ) (h : df ≤ n) : 0 < idf n df := by
  unfold idf
  have h1 : (1 : ℝ) ≤ (n + 1) / (df + 1) := by
    rw [le_div_iff (by positivity)]
    have : (df : ℝ) ≤ (n : ℝ) := by exact_mod_cast h
    linarith
  have := Real.log_nonneg h1
  linarith

theorem model3_ccdd_zero : ∀ x ∈ transform model3 "cc dd", x = (0 : ℝ) := by
  have hz : transform model3 "cc dd" =
      [((0 : ℕ) : ℝ) * idf 3 2, ((0 : ℕ) : ℝ) * idf 3 2, ((0 : ℕ) : ℝ) * idf 3 2] := rfl
  rw [hz]
  intro x hx
  simp only [List.mem_cons, List.not_mem_nil, or_false] at hx
  rcases hx with rfl | rfl | rfl <;> norm_num

theorem model3_aabb_eq : transform model3 "aa bb" = [idf 3 2, idf 3 2, idf 3 2] := by
  have hv : transform model3 "aa bb" =
      [((1 : ℕ) : ℝ) * idf 3 2, ((1 : ℕ) : ℝ) * idf 3 2, ((1 : ℕ) : ℝ) * idf 3 2] := rfl
  rw [hv]
  norm_num

theorem cos_aabb_self :
    cosineSim (transform model3 "aa bb") (transform model3 "aa bb") = 1 := by
  refine cosineSim_self_of_ne _ ?_
  rw [model3_aabb_eq]
  have hp := idf_pos 3 2 (by norm_num)
  have : dotL [idf 3 2, idf 3 2, idf 3 2] [idf 3 2, idf 3 2, idf 3 2] =
      idf 3 2 * idf 3 2 + (idf 3 2 * idf 3 2 + (idf 3 2 * idf 3 2 + 0)) := rfl
  rw [this]
  nlinarith [mul_pos hp hp]

theorem cos_aabb_ccdd :
    cosineSim (transform model3 "aa bb") (transform model3 "cc dd") = 0 := by
  rw [cosineSim_comm]
  exact cosineSim_zero_left _ _ model3_ccdd_zero

theorem rankedPairs_110 : rankedPairs [(1 : ℝ), 1, 0] 5 (1 / 100) = [(1, (1 : ℝ))] := by
  unfold rankedPairs
  have he : List.enum [(1 : ℝ), 1, 0] = [(0, (1 : ℝ)), (1, 1), (2, 0)] := rfl
  rw [he]
  simp only [List.filter_cons, List.filter_nil, decide_eq_true_eq]
  rw [if_pos (by norm_num), if_pos (by norm_num), if_neg (by norm_num)]
  simp only [sortDescKey, insDesc]
  rw [if_neg (by norm_num)]
  rfl

/-- Evaluation of a full recommendation call on the `envDup` snapshot:
records `r1` and `r2` share the processed text "aa bb", so rows 0 and 1 of
the similarity matrix are identical with score 1.0; querying `r2` returns
exactly the record `r2` itself. -/
theorem recommend_stDup_eval :
    ((get_recommendations envDup stDup "r2" 5 (1 / 100)).1.map (fun r => r.id)) = ["r2"] := by
  have h1 : ensureInit envDup stDup = (true, stDup) := by
    unfold ensureInit
    exact if_pos rfl
  have h2 : ensureFreshTtl envDup stDup = (true, stDup) := by
    unfold ensureFreshTtl
    refine if_neg ?_
    rw [show stDup.cache_ttl = (3600 : ℚ) from rfl, show envDup.now = (0 : ℚ) from rfl,
      show stDup.last_update = (0 : ℚ) from rfl]
    norm_num
  have hstep : get_recommendations envDup stDup "r2" 5 (1 / 100) =
      (recommendCore stDup "r2" 5 (1 / 100), stDup) := by
    unfold get_recommendations
    rw [if_neg (by decide), h1]
    rw [if_neg (by simp), h2]
    rw [if_neg (by simp)]
  rw [hstep]
  have hcore : recommendCore stDup "r2" 5 (1 / 100) =
      materialize (stDup.df.getD [])
        (rankedPairs
          [cosineSim (transform model3 "aa bb") (transform model3 "aa bb"),
           cosineSim (transform model3 "aa bb") (transform model3 "aa bb"),
           cosineSim (transform model3 "aa bb") (transform model3 "cc dd")] 5 (1 / 100)) := rfl
  rw [hcore, cos_aabb_self, cos_aabb_ccdd, rankedPairs_110]
  rfl

/-- C2: the claim that `recommend(record_id)` never returns the query
record itself fails on the code.  With the `envDup` snapshot — records
`r1` and `r2` share the processed text "aa bb", so rows 0 and 1 of the
similarity matrix are identical with score 1.0 — querying `r2` makes the
stable descending sort place the tied duplicate row 0 first; dropping only
the first sorted element (`sim_scores[1:top_n+1]`) then drops `r1` and
keeps `r2`: the result list is exactly the query record itself,
contradicting the code's own comment ("Exclude item yang sama") and the
spec's "always rank 0" assumption. -/
theorem c2_self_included_eval :
    (initModel envDup false st0).1 = true ∧
    ((get_recommendations envDup stDup "r2" 5 (1 / 100)).1.map (fun r => r.id)) = ["r2"] :=
  ⟨rfl, recommend_stDup_eval⟩


/-! ### Concrete evaluation of `search_innovations` on the `envA`/`envB`
snapshots -/

theorem cos_single_pos (w : ℝ) (hw : 0 < w) : cosineSim [w] [w] = 1 := by
  refine cosineSim_self_of_ne _ ?_
  have h : dotL [w] [w] = w * w + 0 := rfl
  rw [h]
  nlinarith [mul_pos hw hw]

theorem modelA_zzww_zero : ∀ x ∈ transform modelA "zz ww", x = (0 : ℝ) := by
  have hz : transform modelA "zz ww" = [((0 : ℕ) : ℝ) * idf 3 2] := rfl
  rw [hz]
  intro x hx
  simp only [List.mem_cons, List.not_mem_nil, or_false] at hx
  rcases hx with rfl <;> norm_num

theorem sims_stA : searchSims modelA (stA.df.getD []) (preprocess_text [] idStem "aa") =
    [(1 : ℝ), 1, 0] := by
  have h0 : searchSims modelA (stA.df.getD []) (preprocess_text [] idStem "aa") =
      [cosineSim (transform modelA "aa") (transform modelA "aa xx"),
       cosineSim (transform modelA "aa") (transform modelA "aa yy"),
       cosineSim (transform modelA "aa") (transform modelA "zz ww")] := rfl
  have ha : transform modelA "aa" = [idf 3 2] := by
    have h : transform modelA "aa" = [((1 : ℕ) : ℝ) * idf 3 2] := rfl
    rw [h]
    norm_num
  have hx : transform modelA "aa xx" = [idf 3 2] := by
    have h : transform modelA "aa xx" = [((1 : ℕ) : ℝ) * idf 3 2] := rfl
    rw [h]
    norm_num
  have hy : transform modelA "aa yy" = [idf 3 2] := by
    have h : transform modelA "aa yy" = [((1 : ℕ) : ℝ) * idf 3 2] := rfl
    rw [h]
    norm_num
  rw [h0, ha, hx, hy, cos_single_pos (idf 3 2) (idf_pos 3 2 (by norm_num))]
  rw [show cosineSim [idf 3 2] (transform modelA "zz ww") =
      cosineSim (transform modelA "aa") (transform modelA "zz ww") from by rw [ha],
    cosineSim_comm, cosineSim_zero_left _ _ modelA_zzww_zero]

/-- The stale `envA` snapshot answers the query "aa" from its own (old)
catalog: records `a2` and `a1`. -/
theorem search_stA_eval :
    (search_innovations [] idStem stA "aa" 10).map (fun r => r.id) = ["a2", "a1"] := by
  have hs : search_innovations [] idStem stA "aa" 10 =
      searchResults (stA.df.getD [])
        (searchSims modelA (stA.df.getD []) (preprocess_text [] idStem "aa")) 10 := rfl
  rw [hs, sims_stA]
  unfold searchResults searchTopIdx
  rw [show List.enum [(1 : ℝ), 1, 0] = [(0, (1 : ℝ)), (1, 1), (2, 0)] from rfl]
  norm_num [sortAscKey, insAsc]
  norm_num [List.filterMap_cons]
  rw [show ([(1 : ℝ), 1, 0] : List ℝ)[1] = 1 from rfl]
  rw [if_pos (by norm_num : (1 : ℝ) / 100 < 1)]
  rfl

theorem initModel_envB_stA : initModel envB false stA = lockedRebuild envB stA := by
  unfold initModel
  refine if_neg ?_
  rintro ⟨-, -, hq⟩
  rw [show envB.now = (1000000 : ℚ) from rfl, show stA.last_update = (0 : ℚ) from rfl,
    show stA.cache_ttl = (3600 : ℚ) from rfl] at hq
  norm_num at hq

theorem modelB_aa_zero : ∀ x ∈ transform modelB "aa", x = (0 : ℝ) := by
  have hz : transform modelB "aa" = [((0 : ℕ) : ℝ) * idf 3 2] := rfl
  rw [hz]
  intro x hx
  simp only [List.mem_cons, List.not_mem_nil, or_false] at hx
  rcases hx with rfl <;> norm_num

/-- The snapshot rebuilt from the changed store has no vocabulary overlap
with the query "aa": the same search call answers `[]`. -/
theorem search_stB_eval :
    search_innovations [] idStem (initModel envB false stA).2 "aa" 10 = [] := by
  rw [initModel_envB_stA]
  have hs : search_innovations [] idStem (lockedRebuild envB stA).2 "aa" 10 =
      searchResults ((lockedRebuild envB stA).2.df.getD [])
        (searchSims modelB ((lockedRebuild envB stA).2.df.getD [])
          (preprocess_text [] idStem "aa")) 10 := rfl
  have h0 : searchSims modelB ((lockedRebuild envB stA).2.df.getD [])
      (preprocess_text [] idStem "aa") =
      [cosineSim (transform modelB "aa") (transform modelB "bb cc"),
       cosineSim (transform modelB "aa") (transform modelB "bb dd"),
       cosineSim (transform modelB "aa") (transform modelB "ee ff")] := rfl
  rw [hs, h0, cosineSim_zero_left _ _ modelB_aa_zero, cosineSim_zero_left _ _ modelB_aa_zero,
    cosineSim_zero_left _ _ modelB_aa_zero]
  unfold searchResults searchTopIdx
  rw [show List.enum [(0 : ℝ), 0, 0] = [(0, (0 : ℝ)), (1, 0), (2, 0)] from rfl]
  norm_num [sortAscKey, insAsc, List.filterMap_cons]

/-- C3 counterexample: the snapshot `stA` is stale at `envB`'s clock and a
successful rebuild is available (the store now holds different records),
so the claimed rebuild-before-answering would answer from the rebuilt
snapshot; `search_innovations` instead answers from the stale snapshot —
its result differs from the result on the rebuilt state. -/
theorem c3_counterexample :
    stA.inited = true ∧
    stA.cache_ttl < envB.now - stA.last_update ∧
    (initModel envB false stA).1 = true ∧
    (search_innovations [] idStem stA "aa" 10).map (fun r => r.id) = ["a2", "a1"] ∧
    search_innovations [] idStem (initModel envB false stA).2 "aa" 10 = [] ∧
    search_innovations [] idStem stA "aa" 10 ≠
      search_innovations [] idStem (initModel envB false stA).2 "aa" 10 := by
  refine ⟨rfl, ?_, ?_, search_stA_eval, search_stB_eval, ?_⟩
  · rw [show stA.cache_ttl = (3600 : ℚ) from rfl, show envB.now = (1000000 : ℚ) from rfl,
      show stA.last_update = (0 : ℚ) from rfl]
    norm_num
  · rw [initModel_envB_stA]
    rfl
  · intro h
    rw [search_stB_eval] at h
    have h2 := search_stA_eval
    rw [h] at h2
    simp at h2

/-- Witness for C3: a concrete non-empty recommendation call ends on an
initialized fresh snapshot, and concrete search calls show the `[]` and
age-invariance conclusions. -/
theorem c3_witness :
    (0 : ℚ) ≤ stDup.cache_ttl ∧
    (get_recommendations envDup stDup "r2" 5 (1 / 100)).1 ≠ [] ∧
    (get_recommendations envDup stDup "r2" 5 (1 / 100)).2.inited = true ∧
    envDup.now - (get_recommendations envDup stDup "r2" 5 (1 / 100)).2.last_update ≤
      (get_recommendations envDup stDup "r2" 5 (1 / 100)).2.cache_ttl ∧
    search_innovations [] idStem st0 "aa" 10 = [] ∧
    search_innovations [] idStem { stA with last_update := 77 } "aa" 10 =
      search_innovations [] idStem stA "aa" 10 := by
  have httl : (0 : ℚ) ≤ stDup.cache_ttl := by
    rw [show stDup.cache_ttl = (3600 : ℚ) from rfl]
    norm_num
  have hne : (get_recommendations envDup stDup "r2" 5 (1 / 100)).1 ≠ [] := by
    intro h
    have h2 := recommend_stDup_eval
    rw [h] at h2
    simp at h2
  exact ⟨httl, hne,
    (c3_fresh_on_recommend_only.1 envDup stDup "r2" 5 (1 / 100) httl hne).1,
    (c3_fresh_on_recommend_only.1 envDup stDup "r2" 5 (1 / 100) httl hne).2,
    c3_fresh_on_recommend_only.2.1 [] idStem st0 "aa" 10 rfl,
    c3_fresh_on_recommend_only.2.2 [] idStem stA "aa" 10 77⟩


/-! ### The stemming fallback -/

theorem mem_preTokens_len (stop : List String) (text : String) (u : List Char)
    (hu : u ∈ preTokens stop text) : 1 < u.length := by
  simp only [preTokens] at hu
  split at hu
  · simp at hu
  · rcases List.mem_filter.mp hu with ⟨hu2, -⟩
    rcases List.mem_filter.mp hu2 with ⟨-, hcond⟩
    simp only [Bool.and_eq_true, decide_eq_true_eq] at hcond
    exact hcond.2

theorem finalToks_of_stem_fail (stop : List String) (stem : String → Option String)
    (text : String) (h : stemAll stem (preTokens stop text) = none) :
    finalToks stop stem text = preTokens stop text := by
  unfold finalToks stemStep
  rw [h]
  apply List.filter_eq_self.mpr
  intro u hu
  have hl := mem_preTokens_len stop text u hu
  simp only [Bool.and_eq_true, Bool.not_eq_true', decide_eq_true_eq]
  refine ⟨?_, hl⟩
  cases u with
  | nil => simp at hl
  | cons c t => rfl

/-- C7 (corrected): when stemming raises on any individual token, the
whole stemming pass is abandoned — every token, including the ones the
stemmer could have handled, is passed through unstemmed — and the call as
a whole still succeeds, returning the space-join of the unstemmed
(already filtered) token list. -/
theorem c7_stem_failure_all_unstemmed (stop : List String)
    (stem : String → Option String) (text : String)
    (h : stemAll stem (preTokens stop text) = none) :
    preprocess_text stop stem text = ⟨joinSp (preTokens stop text)⟩ := by
  unfold preprocess_text
  rw [finalToks_of_stem_fail stop stem text h]

/-- C7 counterexample: with a stemmer that fails on the single token "zz"
but stems "aaa" to "bb", `preprocess_text` returns "aaa zz" — the healthy
token "aaa" is not stemmed either, refuting the claim that only the
failing token passes through unstemmed while the remaining tokens are
still stemmed (which would give "bb zz"). -/
theorem c7_counterexample :
    preprocess_text [] failStem "aaa zz" = "aaa zz" ∧
    preprocess_text [] failStem "aaa zz" ≠ "bb zz" := by
  constructor <;> decide

/-- Witness for C7 at the concrete failing stemmer. -/
theorem c7_witness :
    stemAll failStem (preTokens [] "aaa zz") = none ∧
    preprocess_text [] failStem "aaa zz" = ⟨joinSp (preTokens [] "aaa zz")⟩ :=
  ⟨by decide, c7_stem_failure_all_unstemmed [] failStem "aaa zz" (by decide)⟩


/-! ### Idempotence of the normalizer on well-behaved outputs -/

theorem mem_joinSp (toks : List (List Char)) (c : Char) (hc : c ∈ joinSp toks) :
    c = ' ' ∨ ∃ u ∈ toks, c ∈ u := by
  induction toks with
  | nil => simp [joinSp] at hc
  | cons t ts ih =>
      cases ts with
      | nil =>
          right
          exact ⟨t, List.mem_cons_self _ _, by simpa [joinSp] using hc⟩
      | cons t2 ts2 =>
          rw [show joinSp (t :: t2 :: ts2) = t ++ ' ' :: joinSp (t2 :: ts2) from rfl] at hc
          rcases List.mem_append.mp hc with h | h
          · exact Or.inr ⟨t, List.mem_cons_self _ _, h⟩
          · rcases List.mem_cons.mp h with rfl | h2
            · exact Or.inl rfl
            · rcases ih h2 with h3 | ⟨u, hu, hcu⟩
              · exact Or.inl h3
              · exact Or.inr ⟨u, List.mem_cons_of_mem _ hu, hcu⟩

theorem map_id_of_eq {α : Type} (f : α → α) (l : List α) (h : ∀ c ∈ l, f c = c) :
    l.map f = l := by
  induction l with
  | nil => rfl
  | cons x xs ih =>
      rw [List.map_cons, h x (List.mem_cons_self _ _),
        ih (fun c hc => h c (List.mem_cons_of_mem _ hc))]

theorem replEscTN_eq_self (l : List Char) (h : ∀ c ∈ l, ¬(c = '\\')) :
    replEscTN l = l := by
  induction l with
  | nil => rfl
  | cons c rest ih =>
      rw [replEscTN]
      · rw [ih (fun d hd => h d (List.mem_cons_of_mem _ hd))]
      · intro r hc _
        exact h c (List.mem_cons_self _ _) hc
      · intro r hc _
        exact h c (List.mem_cons_self _ _) hc

theorem replEscU_eq_self (l : List Char) (h : ∀ c ∈ l, ¬(c = '\\')) :
    replEscU l = l := by
  induction l with
  | nil => rfl
  | cons c rest ih =>
      rw [replEscU]
      · rw [ih (fun d hd => h d (List.mem_cons_of_mem _ hd))]
      · intro a b e d r hc _
        exact h c (List.mem_cons_self _ _) hc

theorem dropWhile_eq_self_of_head {p : Char → Bool} {l : List Char}
    (h : ∀ c ∈ l.head?, p c = false) : l.dropWhile p = l := by
  cases l with
  | nil => rfl
  | cons c rest =>
      rw [List.dropWhile_cons, h c rfl]
      simp

theorem joinSp_ne_nil (toks : List (List Char)) (hne : toks ≠ [])
    (h : ∀ u ∈ toks, u ≠ []) : joinSp toks ≠ [] := by
  cases toks with
  | nil => exact absurd rfl hne
  | cons t ts =>
      cases ts with
      | nil => simpa [joinSp] using h t (List.mem_cons_self _ _)
      | cons t2 ts2 =>
          rw [show joinSp (t :: t2 :: ts2) = t ++ ' ' :: joinSp (t2 :: ts2) from rfl]
          cases t with
          | nil => simp
          | cons c u => simp

theorem head?_joinSp (toks : List (List Char)) (hne : toks ≠ [])
    (h : ∀ u ∈ toks, u ≠ []) :
    ∃ u ∈ toks, (joinSp toks).head? = u.head? := by
  cases toks with
  | nil => exact absurd rfl hne
  | cons t ts =>
      refine ⟨t, List.mem_cons_self _ _, ?_⟩
      cases ts with
      | nil => rfl
      | cons t2 ts2 =>
          rw [show joinSp (t :: t2 :: ts2) = t ++ ' ' :: joinSp (t2 :: ts2) from rfl]
          cases t with
          | nil => exact absurd rfl (h [] (List.mem_cons_self _ _))
          | cons c u => rfl

theorem getLast?_joinSp (toks : List (List Char)) (hne : toks ≠ [])
    (h : ∀ u ∈ toks, u ≠ []) :
    ∃ u ∈ toks, (joinSp toks).getLast? = u.getLast? := by
  induction toks with
  | nil => exact absurd rfl hne
  | cons t ts ih =>
      cases ts with
      | nil => exact ⟨t, List.mem_cons_self _ _, rfl⟩
      | cons t2 ts2 =>
          rcases ih (by simp) (fun u hu => h u (List.mem_cons_of_mem _ hu)) with ⟨u, hu, heq⟩
          refine ⟨u, List.mem_cons_of_mem _ hu, ?_⟩
          rw [show joinSp (t :: t2 :: ts2) = t ++ ' ' :: joinSp (t2 :: ts2) from rfl]
          have hj : joinSp (t2 :: ts2) ≠ [] :=
            joinSp_ne_nil _ (by simp) (fun u hu => h u (List.mem_cons_of_mem _ hu))
          rw [List.getLast?_append_of_ne_nil _ (by simp)]
          rw [show (' ' :: joinSp (t2 :: ts2)).getLast? = (joinSp (t2 :: ts2)).getLast? from ?_,
            heq]
          cases hcase : joinSp (t2 :: ts2) with
          | nil => exact absurd hcase hj
          | cons y ys => rfl

theorem goodChar_spec {c : Char} (h : goodChar c = true) :
    c.toLower = c ∧ isWordChar c = true ∧ c.isDigit = false ∧ isSpc c = false ∧
      ¬(c = '\\') := by
  simp only [goodChar, Bool.and_eq_true, Bool.not_eq_true', decide_eq_true_eq,
    decide_eq_false_iff_not] at h
  exact ⟨h.1.1.1.1, h.1.1.1.2, h.1.1.2, h.1.2, h.2⟩

theorem trimChars_eq_self_of_nospace (u : List Char) (h : ∀ c ∈ u, isSpc c = false) :
    trimChars u = u := by
  unfold trimChars
  rw [dropWhile_eq_self_of_head (fun c hc => h c (List.mem_of_mem_head? hc))]
  rw [dropWhile_eq_self_of_head (fun c hc => h c (by
    rw [List.head?_reverse] at hc
    exact List.mem_of_mem_getLast? hc)), List.reverse_reverse]

theorem trimChars_joinSp (toks : List (List Char)) (hne : toks ≠ [])
    (hn : ∀ u ∈ toks, u ≠ []) (hs : ∀ u ∈ toks, ∀ c ∈ u, isSpc c = false) :
    trimChars (joinSp toks) = joinSp toks := by
  unfold trimChars
  have h1 : ∀ c ∈ (joinSp toks).head?, isSpc c = false := by
    intro c hc
    rcases head?_joinSp toks hne hn with ⟨u, hu, hequ⟩
    rw [hequ] at hc
    exact hs u hu c (List.mem_of_mem_head? hc)
  rw [dropWhile_eq_self_of_head h1]
  have h2 : ∀ c ∈ (joinSp toks).reverse.head?, isSpc c = false := by
    intro c hc
    rw [List.head?_reverse] at hc
    rcases getLast?_joinSp toks hne hn with ⟨u, hu, hequ⟩
    rw [hequ] at hc
    exact hs u hu c (List.mem_of_mem_getLast? hc)
  rw [dropWhile_eq_self_of_head h2, List.reverse_reverse]

theorem cleanStages_eq_self (l : List Char)
    (hall : ∀ c ∈ l, c = ' ' ∨ goodChar c = true) :
    keepWordSpace (dropDigits (dropBackslash (replEscU (replEscTN
      (l.map Char.toLower))))) = l := by
  have hlow : l.map Char.toLower = l := by
    apply map_id_of_eq
    intro c hc
    rcases hall c hc with rfl | hg
    · rfl
    · exact (goodChar_spec hg).1
  rw [hlow]
  have hnb : ∀ c ∈ l, ¬(c = '\\') := by
    intro c hc
    rcases hall c hc with rfl | hg
    · decide
    · exact (goodChar_spec hg).2.2.2.2
  rw [replEscTN_eq_self l hnb, replEscU_eq_self l hnb]
  unfold dropBackslash dropDigits keepWordSpace
  have h3 : l.filter (fun c => !(c = '\\')) = l := by
    apply List.filter_eq_self.mpr
    intro c hc
    simpa using hnb c hc
  rw [h3]
  have h4 : l.filter (fun c => !c.isDigit) = l := by
    apply List.filter_eq_self.mpr
    intro c hc
    rcases hall c hc with rfl | hg
    · decide
    · simp [(goodChar_spec hg).2.2.1]
  rw [h4]
  apply List.filter_eq_self.mpr
  intro c hc
  rcases hall c hc with rfl | hg
  · decide
  · simp [(goodChar_spec hg).2.1]

theorem foldr_chunksStep_nospace (u : List Char) (acc : List (List Char))
    (h : ∀ c ∈ u, isSpc c = false) :
    u.foldr chunksStep acc = prependChunk u acc := by
  induction u generalizing acc with
  | nil => rfl
  | cons c u ih =>
      rw [List.foldr_cons, ih acc (fun d hd => h d (List.mem_cons_of_mem _ hd))]
      have hc := h c (List.mem_cons_self _ _)
      cases u with
      | nil =>
          cases acc with
          | nil => simp [chunksStep, prependChunk, hc]
          | cons t ts => simp [chunksStep, prependChunk, hc]
      | cons d u2 =>
          cases acc with
          | nil => simp [chunksStep, prependChunk, hc]
          | cons t ts => simp [chunksStep, prependChunk, hc]

theorem foldr_chunksStep_joinSp (toks : List (List Char))
    (hn : ∀ u ∈ toks, u ≠ []) (hs : ∀ u ∈ toks, ∀ c ∈ u, isSpc c = false) :
    (joinSp toks).foldr chunksStep [] = toks := by
  induction toks with
  | nil => rfl
  | cons t ts ih =>
      cases ts with
      | nil =>
          rw [show joinSp [t] = t from rfl,
            foldr_chunksStep_nospace t [] (hs t (List.mem_cons_self _ _))]
          cases ht : t with
          | nil => exact absurd ht (hn t (List.mem_cons_self _ _))
          | cons c u => rfl
      | cons t2 ts2 =>
          rw [show joinSp (t :: t2 :: ts2) = t ++ ' ' :: joinSp (t2 :: ts2) from rfl,
            List.foldr_append, List.foldr_cons,
            ih (fun u hu => hn u (List.mem_cons_of_mem _ hu))
              (fun u hu => hs u (List.mem_cons_of_mem _ hu)),
            show chunksStep ' ' (t2 :: ts2) = [] :: t2 :: ts2 from rfl,
            foldr_chunksStep_nospace t ([] :: t2 :: ts2) (hs t (List.mem_cons_self _ _))]
          cases ht : t with
          | nil => exact absurd ht (hn t (List.mem_cons_self _ _))
          | cons c u => simp [prependChunk]

theorem splitWs_joinSp (toks : List (List Char))
    (hn : ∀ u ∈ toks, u ≠ []) (hs : ∀ u ∈ toks, ∀ c ∈ u, isSpc c = false) :
    splitWs (joinSp toks) = toks := by
  unfold splitWs
  rw [foldr_chunksStep_joinSp toks hn hs]
  apply List.filter_eq_self.mpr
  intro u hu
  simp [List.isEmpty_iff, hn u hu]
theorem preTokens_eq (stop : List String) (l : List Char) :
    preTokens stop ⟨l⟩ =
      if (trimChars l).isEmpty then []
      else (rawTokens (keepWordSpace (dropDigits (dropBackslash (replEscU (replEscTN
        ((trimChars l).map Char.toLower))))))).filter
        (fun t => !stop.contains ⟨t⟩) := rfl

theorem stemAll_fixed (stem : String → Option String) (toks : List (List Char))
    (h : ∀ u ∈ toks, stem ⟨u⟩ = some ⟨u⟩) : stemAll stem toks = some toks := by
  induction toks with
  | nil => rfl
  | cons t ts ih =>
      rw [stemAll, h t (List.mem_cons_self _ _),
        ih (fun u hu => h u (List.mem_cons_of_mem _ hu))]

theorem preTokens_joinSp (stop : List String) (stem : String → Option String)
    (toks : List (List Char)) (h : ∀ u ∈ toks, goodTok stop stem u) :
    preTokens stop ⟨joinSp toks⟩ = toks := by
  have hne : ∀ u ∈ toks, u ≠ [] := by
    intro u hu he
    have h1 := (h u hu).1
    rw [he] at h1
    simp at h1
  have hnosp : ∀ u ∈ toks, ∀ c ∈ u, isSpc c = false := fun u hu c hc =>
    (goodChar_spec ((h u hu).2.1 c hc)).2.2.2.1
  rcases eq_or_ne toks [] with rfl | hemp
  · rfl
  have hall : ∀ c ∈ joinSp toks, c = ' ' ∨ goodChar c = true := by
    intro c hc
    rcases mem_joinSp toks c hc with h1 | ⟨u, hu, hcu⟩
    · exact Or.inl h1
    · exact Or.inr ((h u hu).2.1 c hcu)
  rw [preTokens_eq, trimChars_joinSp toks hemp hne hnosp, cleanStages_eq_self _ hall]
  rw [if_neg (by simp [List.isEmpty_iff, joinSp_ne_nil toks hemp hne])]
  have hraw : rawTokens (joinSp toks) = toks := by
    unfold rawTokens
    rw [splitWs_joinSp toks hne hnosp]
    apply List.filter_eq_self.mpr
    intro u hu
    rw [trimChars_eq_self_of_nospace u (hnosp u hu)]
    simp only [Bool.and_eq_true, Bool.not_eq_true', decide_eq_true_eq]
    exact ⟨by simp [List.isEmpty_iff, hne u hu], (h u hu).1⟩
  rw [hraw]
  apply List.filter_eq_self.mpr
  intro u hu
  simpa using (h u hu).2.2.1

theorem finalToks_joinSp (stop : List String) (stem : String → Option String)
    (toks : List (List Char)) (h : ∀ u ∈ toks, goodTok stop stem u) :
    finalToks stop stem ⟨joinSp toks⟩ = toks := by
  unfold finalToks stemStep
  rw [preTokens_joinSp stop stem toks h,
    stemAll_fixed stem toks (fun u hu => (h u hu).2.2.2)]
  apply List.filter_eq_self.mpr
  intro u hu
  have h1 := (h u hu).1
  have hne : u ≠ [] := by
    intro he
    rw [he] at h1
    simp at h1
  simp only [Bool.and_eq_true, Bool.not_eq_true', decide_eq_true_eq]
  exact ⟨by simp [List.isEmpty_iff, hne], h1⟩

/-- C6 (corrected): re-normalization is the identity on a normalized
output provided every token of that output is longer than one character,
made of lowercase non-digit non-space non-backslash word characters, not a
stopword, and a fixed point of the stemmer.  Without those provisos the
claim fails (see the counterexample: a stemmer may produce a stopword,
which the second pass deletes). -/
theorem c6_idem (stop : List String) (stem : String → Option String) (text : String)
    (h : ∀ u ∈ finalToks stop stem text, goodTok stop stem u) :
    preprocess_text stop stem (preprocess_text stop stem text) =
      preprocess_text stop stem text := by
  show preprocess_text stop stem ⟨joinSp (finalToks stop stem text)⟩ = _
  unfold preprocess_text
  rw [finalToks_joinSp stop stem _ h]

/-- C6 counterexample: with the bundled stopword list and a stemmer
fragment mapping the derived noun "perkataan" to its root "kata" (itself a
stopword), the first pass outputs "kata", and the second pass deletes it:
normalize is not idempotent on its own output. -/
theorem c6_counterexample :
    preprocess_text INDONESIAN_STOPWORDS kataStem "perkataan" = "kata" ∧
    preprocess_text INDONESIAN_STOPWORDS kataStem
        (preprocess_text INDONESIAN_STOPWORDS kataStem "perkataan") ≠
      preprocess_text INDONESIAN_STOPWORDS kataStem "perkataan" := by
  constructor <;> decide

/-- Witness for C6 at a concrete well-behaved input. -/
theorem c6_witness :
    (∀ u ∈ finalToks [] idStem "ab cd", goodTok [] idStem u) ∧
    preprocess_text [] idStem (preprocess_text [] idStem "ab cd") =
      preprocess_text [] idStem "ab cd" :=
  ⟨by decide, c6_idem [] idStem "ab cd" (by decide)⟩

end RecEngine
